import Mathlib

/-
Shallow embedding of the pgconn/pgpool library.

Sources:
  * src/unnamed/part_005 : pgpool.c — the connection pool (struct pgpool, struct pgconn,
    pgpool_create, pgpool_acquire, pgpool_release, pgpool_destroy, pgpool_execute,
    pgpool_query, pgpool_begin/commit/rollback, wait_for_query_completion).
  * src/pgconn.c : the standalone connection wrapper (pgconn_execute, pgconn_query,
    the _safe guarded wrappers, pgconn_begin/commit/rollback, wait_for_result).

Modelling conventions:
  * libpq is the external collaborator.  Its outcomes (PQconnectdb success,
    validation probe result, PQsendQuery success, delivered results, select()
    readiness) are inputs supplied by environment records and oracle functions;
    the embedding sequences them exactly as the C code does.
  * Pointers are modelled by values; a pgconn_t pointer owned by a pool is
    identified by its connection_id (distinct live connections have distinct
    pointers, and ids assigned by the per-pool monotonic counter are distinct).
  * malloc/calloc/strdup failures are not modelled separately: a failed
    allocation inside create_connection is one more way for the creation
    attempt to fail and is covered by the createOk oracle returning false.
  * time(NULL) is passed in as a Nat argument tnow.
  * size_t counters are Nat.  The one unguarded size_t decrement
    (pool->idle_count-- in the failed-replacement branch of pgpool_acquire)
    is reached only in states where idle_count >= 1, which the pool invariant
    below establishes, so Nat truncated subtraction agrees with the C code on
    all reachable states.
-/

/-- Result status of a statement, abstracting the libpq ExecStatusType values
that the code distinguishes. -/
inductive ExecStatus where
  | tuplesOk
  | commandOk
  | fatalError
  | badResponse
  | emptyQuery
  deriving DecidableEq, Repr

/-- The success classification used by every execution entry point:
PGRES_TUPLES_OK or PGRES_COMMAND_OK. -/
def ExecStatus.isSuccess : ExecStatus → Bool
  | .tuplesOk => true
  | .commandOk => true
  | _ => false

/-- A PGresult: its completion status and the text PQresultErrorMessage returns. -/
structure PgRes where
  status : ExecStatus
  resultError : String
  deriving DecidableEq, Repr

/-- struct pgconn of src/unnamed/part_005: the pooled connection wrapper.
raw_conn is modelled by hasRaw (non-null or not) together with pending, the
queue of results PQgetResult would deliver on the raw connection. -/
structure Conn where
  connId : Nat
  hasRaw : Bool
  inUse : Bool
  transactionActive : Bool
  lastActivity : Nat
  lastError : Option String
  pending : List PgRes
  deriving DecidableEq, Repr

/-- pgpool_config_t of src/pgpool.h.  The two callback pointers are modelled by
presence flags, since only their non-nullness affects the control flow that the
claims are about. -/
structure Config where
  conninfo : Option String
  minConnections : Nat
  maxConnections : Nat
  connectTimeout : Int
  autoReconnect : Bool
  hasConnInitCb : Bool
  hasConnCloseCb : Bool
  deriving DecidableEq, Repr

/-- DEFAULT_CONFIG of src/unnamed/part_005 lines 189-197. -/
def DEFAULT_CONFIG : Config :=
  { conninfo := none
    minConnections := 1
    maxConnections := 10
    connectTimeout := 5
    autoReconnect := true
    hasConnInitCb := false
    hasConnCloseCb := false }

/-- struct pgpool of src/unnamed/part_005.  The mutex and condition variable
have no value-level content; waiting and signalling are modelled by the event
parameters of pgpool_acquire and the signal counts in the operation outputs. -/
structure Pool where
  connections : List Conn
  idleCount : Nat
  config : Config
  conninfo : Option String
  shuttingDown : Bool
  initialized : Bool
  nextConnId : Nat
  deriving DecidableEq, Repr

/-- External-world oracle: createOk n is the outcome of the n-th
create_connection attempt (PQconnectdb + non-blocking setup succeeding and
yielding CONNECTION_OK); validOk n is the outcome of the n-th
validate_connection probe (SELECT 1 returning PGRES_TUPLES_OK). -/
structure Env where
  createOk : Nat → Bool
  validOk : Nat → Bool

/-- create_connection of src/unnamed/part_005 lines 224-286.  Returns the new
connection (if the attempt succeeded), the new next_conn_id, and the advanced
creation-oracle counter.  The id counter is consumed by every attempt that
reaches PQconnectdb (conn->connection_id = ++pool->next_conn_id). -/
def create_connection (conninfo : Option String) (nextId kc : Nat) (env : Env)
    (tnow : Nat) : Option Conn × Nat × Nat :=
  match conninfo with
  | none => (none, nextId, kc)
  | some _ =>
    if env.createOk kc then
      (some { connId := nextId + 1
              hasRaw := true
              inUse := false
              transactionActive := false
              lastActivity := tnow
              lastError := none
              pending := [] }, nextId + 1, kc + 1)
    else (none, nextId + 1, kc + 1)

/-- The override-defaults block of pgpool_create (src/unnamed/part_005 lines
351-364): start from DEFAULT_CONFIG and override each field only when the
caller supplied a non-zero / non-null value.  Note the conninfo field of
pool->config is never overridden; the pool keeps its own copy separately. -/
def applyDefaults (config : Config) : Config :=
  let c0 := DEFAULT_CONFIG
  let c1 := if config.minConnections > 0 then { c0 with minConnections := config.minConnections } else c0
  let c2 := if config.maxConnections > 0 then { c1 with maxConnections := config.maxConnections } else c1
  let c3 := if config.connectTimeout > 0 then { c2 with connectTimeout := config.connectTimeout } else c2
  let c4 := if config.autoReconnect then { c3 with autoReconnect := config.autoReconnect } else c3
  let c5 := if config.hasConnInitCb then { c4 with hasConnInitCb := true } else c4
  if config.hasConnCloseCb then { c5 with hasConnCloseCb := true } else c5

/-- The pre-creation loop of pgpool_create (lines 390-400): attempt n
connections, keep the successes in slot order, tolerate individual failures. -/
def createLoop (conninfo : Option String) (env : Env) (tnow : Nat) :
    Nat → Nat → Nat → List Conn × Nat × Nat
  | 0, nextId, kc => ([], nextId, kc)
  | n + 1, nextId, kc =>
    match create_connection conninfo nextId kc env tnow with
    | (some c, nid, kc2) =>
      let r := createLoop conninfo env tnow n nid kc2
      (c :: r.1, r.2.1, r.2.2)
    | (none, nid, kc2) => createLoop conninfo env tnow n nid kc2

/-- pgpool_create of src/unnamed/part_005 lines 333-423.  NULL return is none;
all partially built resources are released on the failure paths, so a failure
retains nothing. -/
def pgpool_create (config : Config) (env : Env) (tnow : Nat) : Option Pool :=
  match config.conninfo with
  | none => none
  | some _ =>
    if config.maxConnections < 1 ∨ config.minConnections > config.maxConnections then none
    else
      let eff := applyDefaults config
      let r := createLoop config.conninfo env tnow eff.minConnections 0 0
      if r.1.length = 0 then none
      else
        some { connections := r.1
               idleCount := r.1.length
               config := eff
               conninfo := config.conninfo
               shuttingDown := false
               initialized := true
               nextConnId := r.2.1 }

/-- The mutable bookkeeping threaded through the idle-scan of pgpool_acquire:
next_conn_id, the two oracle counters, and idle_count. -/
structure ScanSt where
  nextId : Nat
  kc : Nat
  kv : Nat
  idle : Nat
  deriving DecidableEq, Repr

/-- The idle-connection scan of pgpool_acquire (src/unnamed/part_005 lines
504-535), one pass over the slot array.  An idle slot whose validation probe
fails (only probed when auto_reconnect is set) is destroyed and recreated in
place; if recreation fails the slot is removed by compacting the array and
idle_count is decremented, and — because the for loop then increments i over
the compacted array — the slot that moved into position i is skipped for the
rest of this pass.  Returns the new slot list, the new bookkeeping state, and
the acquired connection if one was found. -/
def scanLoop (auto : Bool) (conninfo : Option String) (env : Env) (tnow : Nat) :
    List Conn → ScanSt → List Conn × ScanSt × Option Conn
  | [], st => ([], st, none)
  | c :: rest, st =>
    if c.inUse then
      let r := scanLoop auto conninfo env tnow rest st
      (c :: r.1, r.2.1, r.2.2)
    else
      if auto && !(env.validOk st.kv) then
        let st1 : ScanSt := { st with kv := st.kv + 1 }
        match create_connection conninfo st1.nextId st1.kc env tnow with
        | (some c2, nid, kc2) =>
          let taken := { c2 with inUse := true, lastActivity := tnow }
          let st2 : ScanSt :=
            { st1 with nextId := nid, kc := kc2,
                       idle := if st1.idle > 0 then st1.idle - 1 else st1.idle }
          (taken :: rest, st2, some taken)
        | (none, nid, kc2) =>
          let st2 : ScanSt := { st1 with nextId := nid, kc := kc2, idle := st1.idle - 1 }
          match rest with
          | [] => ([], st2, none)
          | d :: rest2 =>
            let r := scanLoop auto conninfo env tnow rest2 st2
            (d :: r.1, r.2.1, r.2.2)
      else
        let vst : ScanSt := if auto then { st with kv := st.kv + 1 } else st
        let taken := { c with inUse := true, lastActivity := tnow }
        let st2 : ScanSt := { vst with idle := if vst.idle > 0 then vst.idle - 1 else vst.idle }
        (taken :: rest, st2, some taken)

/-- The outcome of one body of the acquire loop (one critical section under the
pool lock): the new pool state, the advanced oracle counters, and the acquired
connection if this iteration produced one. -/
structure IterOut where
  pool : Pool
  kc : Nat
  kv : Nat
  acquired : Option Conn
  deriving Repr

/-- The tail of one acquire-loop iteration, after the idle scan found nothing:
if the (possibly compacted) table is below max_connections, try to create a
fresh connection; on success it is appended to the table, marked in_use and
handed out (src/unnamed/part_005 lines 538-547). -/
def acquireFinish (p : Pool) (env : Env) (tnow : Nat) (conns : List Conn) (st : ScanSt) :
    IterOut :=
  if conns.length < p.config.maxConnections then
    match create_connection p.conninfo st.nextId st.kc env tnow with
    | (some c, nid, kc2) =>
      { pool := { p with
          connections := conns ++ [{ c with inUse := true, lastActivity := tnow }]
          idleCount := st.idle
          nextConnId := nid }
        kc := kc2, kv := st.kv
        acquired := some { c with inUse := true, lastActivity := tnow } }
    | (none, nid, kc2) =>
      { pool := { p with connections := conns, idleCount := st.idle, nextConnId := nid }
        kc := kc2, kv := st.kv, acquired := none }
  else
    { pool := { p with connections := conns, idleCount := st.idle, nextConnId := st.nextId }
      kc := st.kc, kv := st.kv, acquired := none }

/-- One iteration of the while loop of pgpool_acquire (src/unnamed/part_005
lines 502-547): scan the slots for an idle connection; if none is found,
fall through to acquireFinish (lazy creation up to max_connections). -/
def acquireIter (p : Pool) (env : Env) (kc kv tnow : Nat) : IterOut :=
  match scanLoop p.config.autoReconnect p.conninfo env tnow p.connections
      { nextId := p.nextConnId, kc := kc, kv := kv, idle := p.idleCount } with
  | (conns, st, some c) =>
    { pool := { p with connections := conns, idleCount := st.idle, nextConnId := st.nextId }
      kc := st.kc, kv := st.kv, acquired := some c }
  | (conns, st, none) => acquireFinish p env tnow conns st

/-- One observed outcome of blocking on the pool condition variable while the
lock is dropped: wake carries the pool state found after re-acquiring the lock
(other threads may have mutated it), timedOutEv is pthread_cond_timedwait
returning ETIMEDOUT, waitErrEv any other pthread_cond_timedwait error.  The
latter two are produced only by timed waits; if such an event appears in a
trace driven with a negative timeout it is treated as a spurious wakeup with
an unchanged pool, which plain pthread_cond_wait is allowed to produce. -/
inductive WaitEv where
  | wake (p : Pool)
  | timedOutEv
  | waitErrEv

/-- Result of pgpool_acquire: got is a non-NULL return, failedAcq is a NULL
return, blockedAcq means the wait-event trace was exhausted while the call was
still waiting on the condition variable (the call has not returned). -/
inductive AcqOut where
  | got (p : Pool) (c : Conn)
  | failedAcq (p : Pool)
  | blockedAcq (p : Pool)
  deriving Repr

/-- One pass through the body of the pgpool_acquire while loop, up to the
decision whether to wait: check the shutting_down flag at loop entry, run the
scan/create iteration, and either finish (a connection was produced, or
timeout_ms = 0 forces an immediate NULL) or report that the thread must block
on the condition variable, carrying the pool state and oracle counters at
that point. -/
inductive IterRes where
  | done (r : AcqOut)
  | wait (p : Pool) (kc kv : Nat)
  deriving Repr

/-- The loop body of pgpool_acquire (src/unnamed/part_005 lines 502-552). -/
def acquireOnce (timeoutMs : Int) (env : Env) (tnow : Nat) (p : Pool) (kc kv : Nat) :
    IterRes :=
  if p.shuttingDown then IterRes.done (AcqOut.failedAcq p)
  else
    match (acquireIter p env kc kv tnow).acquired with
    | some c => IterRes.done (AcqOut.got (acquireIter p env kc kv tnow).pool c)
    | none =>
      if timeoutMs = 0 then
        IterRes.done (AcqOut.failedAcq (acquireIter p env kc kv tnow).pool)
      else
        IterRes.wait (acquireIter p env kc kv tnow).pool
          (acquireIter p env kc kv tnow).kc (acquireIter p env kc kv tnow).kv

/-- The while loop of pgpool_acquire (src/unnamed/part_005 lines 502-566),
driven by the trace of wait outcomes: after a body pass that decided to
block, a negative timeout_ms waits on pthread_cond_wait (only wake events,
possibly spurious, can occur) and a positive timeout_ms waits on
pthread_cond_timedwait, returning NULL on ETIMEDOUT and on any other wait
error.  An exhausted trace while blocking is the still-waiting call. -/
def acquireLoop (timeoutMs : Int) (env : Env) (tnow : Nat) :
    List WaitEv → Pool → Nat → Nat → AcqOut
  | [], p, kc, kv =>
    match acquireOnce timeoutMs env tnow p kc kv with
    | IterRes.done r => r
    | IterRes.wait q _ _ => AcqOut.blockedAcq q
  | ev :: rest, p, kc, kv =>
    match acquireOnce timeoutMs env tnow p kc kv with
    | IterRes.done r => r
    | IterRes.wait q kc2 kv2 =>
      match ev with
      | WaitEv.wake q2 => acquireLoop timeoutMs env tnow rest q2 kc2 kv2
      | WaitEv.timedOutEv =>
        if timeoutMs > 0 then AcqOut.failedAcq q
        else acquireLoop timeoutMs env tnow rest q kc2 kv2
      | WaitEv.waitErrEv =>
        if timeoutMs > 0 then AcqOut.failedAcq q
        else acquireLoop timeoutMs env tnow rest q kc2 kv2

/-- pgpool_acquire of src/unnamed/part_005 lines 475-570.  The gettimeofday
failure path (an immediate NULL before taking the lock) is not modelled. -/
def pgpool_acquire (p : Pool) (timeoutMs : Int) (env : Env) (kc kv tnow : Nat)
    (evs : List WaitEv) : AcqOut :=
  if p.initialized then acquireLoop timeoutMs env tnow evs p kc kv
  else AcqOut.failedAcq p

/-- The membership scan plus slot update of pgpool_release: find the first slot
holding the released pointer (identified by its connection id); if found,
perform the best-effort ROLLBACK when a transaction is active, clear the
transaction flag, mark the slot idle, stamp activity, clear the stored error.
Returns the updated slot list and whether a ROLLBACK was issued. -/
def releaseSlots (cid tnow : Nat) : List Conn → Option (List Conn × Bool)
  | [] => none
  | c :: rest =>
    if c.connId = cid then
      some ({ c with inUse := false
                     transactionActive := false
                     lastActivity := tnow
                     lastError := none } :: rest, c.transactionActive)
    else
      match releaseSlots cid tnow rest with
      | none => none
      | some (l, rb) => some (c :: l, rb)

/-- Output of pgpool_release: the new pool, whether the not-owned-by-pool
warning was printed, whether a best-effort ROLLBACK was issued, and how many
pthread_cond_signal calls were made. -/
structure ReleaseOut where
  pool : Pool
  notOwnedWarning : Bool
  rolledBack : Bool
  signals : Nat
  deriving Repr

/-- pgpool_release of src/unnamed/part_005 lines 573-617. -/
def pgpool_release (p : Pool) (cid tnow : Nat) : ReleaseOut :=
  if p.initialized then
    match releaseSlots cid tnow p.connections with
    | none => { pool := p, notOwnedWarning := true, rolledBack := false, signals := 0 }
    | some (l, rb) =>
      { pool := { p with connections := l, idleCount := p.idleCount + 1 }
        notOwnedWarning := false, rolledBack := rb, signals := 1 }
  else { pool := p, notOwnedWarning := true, rolledBack := false, signals := 0 }

/-- The bounded wait loop of pgpool_destroy (lines 441-447): up to 10 sleep
intervals while idle_count < connection_count; during each interval the lock
is dropped, and the schedule supplies the pgpool_release calls other threads
complete in that window (connection id and release time).  Returns the pool
afterwards and how many intervals were waited. -/
def destroyWaitLoop : Nat → Pool → List (List (Nat × Nat)) → Pool × Nat
  | 0, p, _ => (p, 0)
  | fuel + 1, p, sched =>
    if p.idleCount < p.connections.length then
      let p2 := (sched.headD []).foldl (fun q r => (pgpool_release q r.1 r.2).pool) p
      let r := destroyWaitLoop fuel p2 sched.tail
      (r.1, r.2 + 1)
    else (p, 0)

/-- Output of pgpool_destroy: the final pool contents just before free(pool),
whether the broadcast woke all waiters, how many bounded wait intervals ran,
the ids of the connections passed to destroy_connection (in slot order), and
whether the destroying-with-active-connections warning fired. -/
structure DestroyOut where
  pool : Pool
  broadcast : Bool
  waitIntervals : Nat
  destroyedIds : List Nat
  forcedWarning : Bool
  noop : Bool
  deriving Repr

/-- pgpool_destroy of src/unnamed/part_005 lines 426-472: set shutting_down,
broadcast to all waiters, wait at most 10 short intervals for checked-out
connections to come back, then destroy every slot exactly once (each slot is
passed to destroy_connection and then set to NULL) regardless of checkout
state, and release the table. -/
def pgpool_destroy (p : Pool) (sched : List (List (Nat × Nat))) : DestroyOut :=
  if p.initialized then
    let p1 := { p with shuttingDown := true }
    let r := destroyWaitLoop 10 p1 sched
    { pool := { r.1 with connections := [], conninfo := none, initialized := false }
      broadcast := true
      waitIntervals := r.2
      destroyedIds := r.1.connections.map (fun c => c.connId)
      forcedWarning := r.1.idleCount < r.1.connections.length
      noop := false }
  else
    { pool := p, broadcast := false, waitIntervals := 0, destroyedIds := []
      forcedWarning := false, noop := true }

/-- One select() outcome in the readiness-wait loop, together with what follows
it in the same iteration: ready d cOk busy msg means select reported the socket
readable after d milliseconds, PQconsumeInput then returned cOk (msg is the
PQerrorMessage text when it failed) and PQisBusy returned busy; timedOutSel
means select returned 0 after waiting the full armed timeout; eintrSel d means
select failed with EINTR after d milliseconds; selErr d msg means select
failed otherwise after d milliseconds. -/
inductive SelEv where
  | ready (d : Nat) (consumeOk : Bool) (busy : Bool) (msg : String)
  | timedOutSel
  | eintrSel (d : Nat)
  | selErr (d : Nat) (msg : String)
  deriving DecidableEq, Repr

/-- Observable outcome of the readiness-wait loop: whether it reported
completion, the error message it recorded on the connection (none when it
recorded nothing), whether a best-effort PQcancel was issued, the total wall
time spent in select calls, the timeout value armed for each select call
(none for a NULL timeval, i.e. block indefinitely), and whether the event
trace ran out while the loop was still going. -/
structure WaitOut where
  ok : Bool
  recordedError : Option String
  cancelIssued : Bool
  elapsed : Nat
  armings : List (Option Nat)
  stillLooping : Bool
  deriving DecidableEq, Repr

/-- wait_for_query_completion of src/unnamed/part_005 lines 631-679.  The loop
body re-initializes the timeval to the full timeout_ms on every iteration
before calling select; on select timeout it records the timeout error, issues
a best-effort PQcancel, and returns false; on EINTR it retries; on any other
select error it records the message and returns false; when input is
available it calls PQconsumeInput (failure records PQerrorMessage and returns
false) and returns true as soon as PQisBusy reports the query complete. -/
def wait_for_query_completion (timeoutMs : Int) : List SelEv → WaitOut
  | [] =>
    { ok := false, recordedError := none, cancelIssued := false, elapsed := 0
      armings := [], stillLooping := true }
  | ev :: evs =>
    let arm : Option Nat := if 0 ≤ timeoutMs then some timeoutMs.toNat else none
    match ev with
    | .timedOutSel =>
      { ok := false, recordedError := some "Query execution timed out"
        cancelIssued := true, elapsed := timeoutMs.toNat, armings := [arm]
        stillLooping := false }
    | .eintrSel d =>
      let r := wait_for_query_completion timeoutMs evs
      { r with elapsed := d + r.elapsed, armings := arm :: r.armings }
    | .selErr d msg =>
      { ok := false, recordedError := some ("select() failed: " ++ msg)
        cancelIssued := false, elapsed := d, armings := [arm]
        stillLooping := false }
    | .ready d cOk busy msg =>
      if cOk then
        if busy then
          let r := wait_for_query_completion timeoutMs evs
          { r with elapsed := d + r.elapsed, armings := arm :: r.armings }
        else
          { ok := true, recordedError := none, cancelIssued := false
            elapsed := d, armings := [arm], stillLooping := false }
      else
        { ok := false, recordedError := some msg, cancelIssued := false
          elapsed := d, armings := [arm], stillLooping := false }

/-- External behaviour of libpq for one statement execution: whether
PQsendQuery (or PQexec) succeeds, the PQerrorMessage text at that point, the
outcome of the readiness wait (whose internals are modelled separately by
wait_for_query_completion), the error text the wait records on failure, and
the results the server delivers for the statement in order. -/
structure PCallEnv where
  sendOk : Bool
  sendErr : String
  waitOk : Bool
  waitErr : String
  results : List PgRes
  deriving DecidableEq, Repr

/-- Output of the boolean execution entry points: the updated connection, the
returned boolean, and the statements that were handed to the server. -/
structure PExecOut where
  conn : Conn
  ok : Bool
  sent : List String
  deriving DecidableEq, Repr

/-- pgpool_execute of src/unnamed/part_005 lines 682-724: guard against a null
connection / raw connection / query, drain leftover results
(consume_all_results) and clear the stored error, send the query, wait for
completion (abstracted by env.waitOk with env.waitErr the error the wait
records), take the first result, classify success as PGRES_TUPLES_OK or
PGRES_COMMAND_OK, record PQresultErrorMessage on any other status, and drain
any additional results before returning. -/
def pgpool_execute (conn : Conn) (query : Option String) (timeoutMs : Int)
    (env : PCallEnv) : PExecOut :=
  match query with
  | none =>
    { conn := { conn with lastError := some "Invalid connection or query" }
      ok := false, sent := [] }
  | some q =>
    if conn.hasRaw then
      let c1 := { conn with pending := [], lastError := none }
      if env.sendOk then
        let c2 := { c1 with pending := env.results }
        if env.waitOk then
          match c2.pending with
          | [] =>
            { conn := { c2 with pending := [], lastError := some "No result received from query" }
              ok := false, sent := [q] }
          | r :: _ =>
            let success := r.status.isSuccess
            let c3 := if success then c2 else { c2 with lastError := some r.resultError }
            { conn := { c3 with pending := [] }, ok := success, sent := [q] }
        else
          { conn := { c2 with lastError := some env.waitErr }, ok := false, sent := [q] }
      else
        { conn := { c1 with lastError := some env.sendErr }, ok := false, sent := [] }
    else
      { conn := { conn with lastError := some "Invalid connection or query" }
        ok := false, sent := [] }

/-- Output of the result-returning execution entry points. -/
structure PQueryOut where
  conn : Conn
  result : Option PgRes
  sent : List String
  deriving DecidableEq, Repr

/-- pgpool_query of src/unnamed/part_005 lines 727-767: same protocol as
pgpool_execute but the successful result is handed to the caller; on any
non-success status the error text is recorded, the result cleared, and NULL
returned. -/
def pgpool_query (conn : Conn) (query : Option String) (timeoutMs : Int)
    (env : PCallEnv) : PQueryOut :=
  match query with
  | none =>
    { conn := { conn with lastError := some "Invalid connection or query" }
      result := none, sent := [] }
  | some q =>
    if conn.hasRaw then
      let c1 := { conn with pending := [], lastError := none }
      if env.sendOk then
        let c2 := { c1 with pending := env.results }
        if env.waitOk then
          match c2.pending with
          | [] =>
            { conn := { c2 with pending := [], lastError := some "No result received from query" }
              result := none, sent := [q] }
          | r :: _ =>
            if r.status.isSuccess then
              { conn := { c2 with pending := [] }, result := some r, sent := [q] }
            else
              { conn := { c2 with pending := [], lastError := some r.resultError }
                result := none, sent := [q] }
        else
          { conn := { c2 with lastError := some env.waitErr }, result := none, sent := [q] }
      else
        { conn := { c1 with lastError := some env.sendErr }, result := none, sent := [] }
    else
      { conn := { conn with lastError := some "Invalid connection or query" }
        result := none, sent := [] }

/-- pgpool_begin of src/unnamed/part_005 lines 883-897: refuse when a
transaction is already active (recording the illegal-state message before any
statement is issued), otherwise run BEGIN through pgpool_execute with an
infinite timeout and set the transaction flag only on success. -/
def pgpool_begin (conn : Conn) (env : PCallEnv) : PExecOut :=
  if conn.transactionActive then
    { conn := { conn with lastError := some "Transaction already active" }
      ok := false, sent := [] }
  else
    let r := pgpool_execute conn (some "BEGIN") (-1) env
    if r.ok then { r with conn := { r.conn with transactionActive := true } } else r

/-- pgpool_commit of src/unnamed/part_005 lines 900-912: refuse when no
transaction is active, otherwise run COMMIT and clear the transaction flag
unconditionally, even if the statement failed. -/
def pgpool_commit (conn : Conn) (env : PCallEnv) : PExecOut :=
  if conn.transactionActive then
    let r := pgpool_execute conn (some "COMMIT") (-1) env
    { r with conn := { r.conn with transactionActive := false } }
  else
    { conn := { conn with lastError := some "No active transaction to commit" }
      ok := false, sent := [] }

/-- pgpool_rollback of src/unnamed/part_005 lines 915-927: same shape as
pgpool_commit with ROLLBACK. -/
def pgpool_rollback (conn : Conn) (env : PCallEnv) : PExecOut :=
  if conn.transactionActive then
    let r := pgpool_execute conn (some "ROLLBACK") (-1) env
    { r with conn := { r.conn with transactionActive := false } }
  else
    { conn := { conn with lastError := some "No active transaction to rollback" }
      ok := false, sent := [] }

/-- pgconn_query_opts_t of src/pgconn.c: per-call query options. -/
structure QueryOpts where
  timeoutMs : Int
  retryOnFailure : Bool
  deriving DecidableEq, Repr

/-- DEFAULT_QUERY_OPTS of src/pgconn.c lines 30-33: infinite timeout, no retry. -/
def DEFAULT_QUERY_OPTS : QueryOpts :=
  { timeoutMs := -1, retryOnFailure := false }

/-- struct pgconn of src/pgconn.c: the standalone connection wrapper.  The
fixed-size last_error buffer is a String ("" when cleared); hasRaw models the
raw_conn pointer being non-null, and pending the raw connection result queue
(as for the pooled wrapper). -/
structure PgcConn where
  hasRaw : Bool
  lastError : String
  connectionId : Nat
  lastActivity : Nat
  reconnectAttempts : Nat
  threadSafe : Bool
  transactionActive : Bool
  pending : List PgRes
  deriving DecidableEq, Repr

/-- Output of the boolean pgconn execution entry points. -/
structure CExecOut where
  conn : PgcConn
  ok : Bool
  sent : List String
  deriving DecidableEq, Repr

/-- pgconn_execute of src/pgconn.c lines 337-398: guard, drain leftover
results (consume_results) and clear the error, then either run the statement
synchronously through PQexec (timeout_ms < 0; PQexec itself consumes every
result of the statement and hands back the last one) or dispatch it with
PQsendQuery, wait for completion bounded by the timeout (abstracted by
env.waitOk / env.waitErr, the loop itself being wait_for_result, modelled as
wait_for_query_completion above), classify the first retrieved result, record
PQresultErrorMessage on a non-success status, and drain any further results.
A null opts pointer selects DEFAULT_QUERY_OPTS. -/
def pgconn_execute (conn : PgcConn) (query : Option String)
    (opts : Option QueryOpts) (env : PCallEnv) (tnow : Nat) : CExecOut :=
  match query with
  | none =>
    { conn := { conn with lastError := "Invalid connection or query" }
      ok := false, sent := [] }
  | some q =>
    if conn.hasRaw then
      let o := opts.getD DEFAULT_QUERY_OPTS
      let c1 := { conn with pending := [], lastError := "" }
      if o.timeoutMs < 0 then
        if env.sendOk then
          match env.results.getLast? with
          | none =>
            { conn := { c1 with lastError := "No result received from query" }
              ok := false, sent := [q] }
          | some r =>
            let success := r.status.isSuccess
            let c2 := if success then c1 else { c1 with lastError := r.resultError }
            { conn := { c2 with pending := [], lastActivity := tnow }
              ok := success, sent := [q] }
        else
          { conn := { c1 with lastError := "No result received from query" }
            ok := false, sent := [q] }
      else
        if env.sendOk then
          let c2 := { c1 with pending := env.results }
          if env.waitOk then
            match c2.pending with
            | [] =>
              { conn := { c2 with pending := [], lastError := "No result received from query" }
                ok := false, sent := [q] }
            | r :: _ =>
              let success := r.status.isSuccess
              let c3 := if success then c2 else { c2 with lastError := r.resultError }
              { conn := { c3 with pending := [], lastActivity := tnow }
                ok := success, sent := [q] }
          else
            { conn := { c2 with lastError := env.waitErr }, ok := false, sent := [q] }
        else
          { conn := { c1 with lastError := env.sendErr }, ok := false, sent := [] }
    else
      { conn := { conn with lastError := "Invalid connection or query" }
        ok := false, sent := [] }

/-- Output of the result-returning pgconn execution entry points. -/
structure CQueryOut where
  conn : PgcConn
  result : Option PgRes
  sent : List String
  deriving DecidableEq, Repr

/-- pgconn_query of src/pgconn.c lines 416-475: same protocol as
pgconn_execute but the successful result is handed to the caller. -/
def pgconn_query (conn : PgcConn) (query : Option String)
    (opts : Option QueryOpts) (env : PCallEnv) (tnow : Nat) : CQueryOut :=
  match query with
  | none =>
    { conn := { conn with lastError := "Invalid connection or query" }
      result := none, sent := [] }
  | some q =>
    if conn.hasRaw then
      let o := opts.getD DEFAULT_QUERY_OPTS
      let c1 := { conn with pending := [], lastError := "" }
      if o.timeoutMs < 0 then
        if env.sendOk then
          match env.results.getLast? with
          | none =>
            { conn := { c1 with lastError := "No result received from query" }
              result := none, sent := [q] }
          | some r =>
            if r.status.isSuccess then
              { conn := { c1 with pending := [], lastActivity := tnow }
                result := some r, sent := [q] }
            else
              { conn := { c1 with pending := [], lastError := r.resultError, lastActivity := tnow }
                result := none, sent := [q] }
        else
          { conn := { c1 with lastError := "No result received from query" }
            result := none, sent := [q] }
      else
        if env.sendOk then
          let c2 := { c1 with pending := env.results }
          if env.waitOk then
            match c2.pending with
            | [] =>
              { conn := { c2 with pending := [], lastError := "No result received from query" }
                result := none, sent := [q] }
            | r :: _ =>
              if r.status.isSuccess then
                { conn := { c2 with pending := [], lastActivity := tnow }
                  result := some r, sent := [q] }
              else
                { conn := { c2 with pending := [], lastError := r.resultError, lastActivity := tnow }
                  result := none, sent := [q] }
          else
            { conn := { c2 with lastError := env.waitErr }, result := none, sent := [q] }
        else
          { conn := { c1 with lastError := env.sendErr }, result := none, sent := [] }
    else
      { conn := { conn with lastError := "Invalid connection or query" }
        result := none, sent := [] }

/-- A lock-trace event on a session lock, tagged with the connection id of the
session whose pthread mutex is taken or released. -/
inductive LockEv where
  | lockEv (sid : Nat)
  | unlockEv (sid : Nat)
  deriving DecidableEq, Repr

/-- The connection id a lock event refers to. -/
def LockEv.sid : LockEv → Nat
  | .lockEv s => s
  | .unlockEv s => s

/-- Output of a guarded (_safe) boolean entry point: the core call result plus
the session-lock trace the wrapper produced. -/
structure CSafeExecOut where
  conn : PgcConn
  ok : Bool
  sent : List String
  trace : List LockEv
  deriving DecidableEq, Repr

/-- pgconn_execute_safe of src/pgconn.c lines 400-414: when the session was
created thread_safe, take the session's own mutex, call the unguarded
pgconn_execute with the same arguments, release the mutex; otherwise it is a
plain passthrough.  The unlock re-reads conn->thread_safe after the core
call, exactly as the C code does. -/
def pgconn_execute_safe (conn : PgcConn) (query : Option String)
    (opts : Option QueryOpts) (env : PCallEnv) (tnow : Nat) : CSafeExecOut :=
  let pre := if conn.threadSafe then [LockEv.lockEv conn.connectionId] else []
  let r := pgconn_execute conn query opts env tnow
  let post := if r.conn.threadSafe then [LockEv.unlockEv r.conn.connectionId] else []
  { conn := r.conn, ok := r.ok, sent := r.sent, trace := pre ++ post }

/-- Output of a guarded (_safe) result-returning entry point. -/
structure CSafeQueryOut where
  conn : PgcConn
  result : Option PgRes
  sent : List String
  trace : List LockEv
  deriving DecidableEq, Repr

/-- pgconn_query_safe of src/pgconn.c lines 477-491: the same guarded bracket
around pgconn_query. -/
def pgconn_query_safe (conn : PgcConn) (query : Option String)
    (opts : Option QueryOpts) (env : PCallEnv) (tnow : Nat) : CSafeQueryOut :=
  let pre := if conn.threadSafe then [LockEv.lockEv conn.connectionId] else []
  let r := pgconn_query conn query opts env tnow
  let post := if r.conn.threadSafe then [LockEv.unlockEv r.conn.connectionId] else []
  { conn := r.conn, result := r.result, sent := r.sent, trace := pre ++ post }

/-- Modelled from the spec (section 4.5), as the refinement target for the
guarded call surface: every guarded entry point acquires the session's own
lock, calls the unguarded core operation, and releases the lock, strictly in
that order.  The core operation is passed as a function of the session state;
its extra outputs are returned unchanged alongside the lock trace. -/
def guardedSpec {α : Type} (conn : PgcConn) (core : PgcConn → PgcConn × α) :
    (PgcConn × α) × List LockEv :=
  let pre := if conn.threadSafe then [LockEv.lockEv conn.connectionId] else []
  let r := core conn
  let post := if r.1.threadSafe then [LockEv.unlockEv r.1.connectionId] else []
  (r, pre ++ post)

/-- pgconn_begin of src/pgconn.c lines 795-811: refuse when a transaction is
already active (recording the illegal-state message before any statement is
issued), otherwise run BEGIN through pgconn_execute with NULL opts and set
the transaction flag only on success. -/
def pgconn_begin (conn : PgcConn) (env : PCallEnv) (tnow : Nat) : CExecOut :=
  if conn.transactionActive then
    { conn := { conn with lastError := "Transaction already active" }
      ok := false, sent := [] }
  else
    let r := pgconn_execute conn (some "BEGIN") none env tnow
    if r.ok then { r with conn := { r.conn with transactionActive := true } } else r

/-- pgconn_commit of src/pgconn.c lines 829-843: refuse when no transaction is
active, otherwise run COMMIT and clear the transaction flag unconditionally,
even if the statement failed. -/
def pgconn_commit (conn : PgcConn) (env : PCallEnv) (tnow : Nat) : CExecOut :=
  if conn.transactionActive then
    let r := pgconn_execute conn (some "COMMIT") none env tnow
    { r with conn := { r.conn with transactionActive := false } }
  else
    { conn := { conn with lastError := "No active transaction to commit" }
      ok := false, sent := [] }

/-- pgconn_rollback of src/pgconn.c lines 861-875: same shape as pgconn_commit
with ROLLBACK. -/
def pgconn_rollback (conn : PgcConn) (env : PCallEnv) (tnow : Nat) : CExecOut :=
  if conn.transactionActive then
    let r := pgconn_execute conn (some "ROLLBACK") none env tnow
    { r with conn := { r.conn with transactionActive := false } }
  else
    { conn := { conn with lastError := "No active transaction to rollback" }
      ok := false, sent := [] }

/-- Number of slots of the connection table holding an idle (not in_use)
connection. -/
def idleSlots (l : List Conn) : Nat := (l.filter fun c => !c.inUse).length

/-- Number of slots of the connection table holding a checked-out (in_use)
connection. -/
def busySlots (l : List Conn) : Nat := (l.filter fun c => c.inUse).length

/-- The connection ids stored in the table, in slot order. -/
def idsOf (l : List Conn) : List Nat := l.map fun c => c.connId

theorem idleSlots_cons (c : Conn) (l : List Conn) :
    idleSlots (c :: l) = (if c.inUse then 0 else 1) + idleSlots l := by
  cases h : c.inUse <;> simp [idleSlots, List.filter_cons, h] <;> omega

theorem busySlots_cons (c : Conn) (l : List Conn) :
    busySlots (c :: l) = (if c.inUse then 1 else 0) + busySlots l := by
  cases h : c.inUse <;> simp [busySlots, List.filter_cons, h] <;> omega

theorem busySlots_add_idleSlots (l : List Conn) :
    busySlots l + idleSlots l = l.length := by
  induction l with
  | nil => rfl
  | cons c rest ih =>
    rw [busySlots_cons, idleSlots_cons]
    cases h : c.inUse <;> simp <;> omega

theorem idleSlots_le_length (l : List Conn) : idleSlots l ≤ l.length := by
  have := busySlots_add_idleSlots l
  omega

theorem idsOf_cons (c : Conn) (l : List Conn) :
    idsOf (c :: l) = c.connId :: idsOf l := rfl

theorem create_connection_some {ci : Option String} {nid kc : Nat} {env : Env} {tnow : Nat}
    {c : Conn} {nid2 kc2 : Nat}
    (h : create_connection ci nid kc env tnow = (some c, nid2, kc2)) :
    nid2 = nid + 1 ∧ kc2 = kc + 1 ∧
    c = { connId := nid + 1, hasRaw := true, inUse := false, transactionActive := false,
          lastActivity := tnow, lastError := none, pending := [] } := by
  cases ci with
  | none => simp [create_connection] at h
  | some s =>
    by_cases hc : env.createOk kc
    · simp only [create_connection, hc, if_true, Prod.mk.injEq, Option.some.injEq] at h
      exact ⟨h.2.1.symm, h.2.2.symm, h.1.symm⟩
    · simp [create_connection, hc] at h

theorem create_connection_none {ci : Option String} {nid kc : Nat} {env : Env} {tnow : Nat}
    {nid2 kc2 : Nat}
    (h : create_connection ci nid kc env tnow = (none, nid2, kc2)) :
    nid ≤ nid2 ∧ nid2 ≤ nid + 1 := by
  cases ci with
  | none =>
    simp only [create_connection, Prod.mk.injEq] at h
    obtain ⟨h1, h2⟩ := h
    omega
  | some s =>
    by_cases hc : env.createOk kc
    · simp [create_connection, hc] at h
    · simp [create_connection, hc] at h
      obtain ⟨h1, h2⟩ := h
      omega

/-- The acquire scan only advances next_conn_id. -/
theorem scanLoop_nextId_mono (auto : Bool) (ci : Option String) (env : Env) (tnow : Nat)
    (l : List Conn) (st : ScanSt) :
    st.nextId ≤ (scanLoop auto ci env tnow l st).2.1.nextId := by
  induction l, st using scanLoop.induct auto ci env tnow with
  | case1 st => simp [scanLoop]
  | case2 c rest st hin ih =>
    simpa only [scanLoop, hin, if_true] using ih
  | case3 c rest st hin hv st1 c1 nid kc2 hcr =>
    obtain ⟨e1, e2, e3⟩ := create_connection_some hcr
    have e0 : st1.nextId = st.nextId := rfl
    simp only [scanLoop, hin, hv, hcr, Bool.false_eq_true, if_false, if_true]
    omega
  | case4 c st hin hv st1 nid kc2 hcr =>
    obtain ⟨e1, e2⟩ := create_connection_none hcr
    have e0 : st1.nextId = st.nextId := rfl
    simp only [scanLoop, hin, hv, hcr, Bool.false_eq_true, if_false, if_true]
    omega
  | case5 c st hin hv st1 nid kc2 hcr st2 d rest2 ih =>
    obtain ⟨e1, e2⟩ := create_connection_none hcr
    have e0 : st1.nextId = st.nextId := rfl
    have ih2 : nid ≤ (scanLoop auto ci env tnow rest2
        { nextId := nid, kc := kc2, kv := st.kv + 1, idle := st.idle - 1 }).2.1.nextId := ih
    simp only [scanLoop, hin, hv, hcr, Bool.false_eq_true, if_false, if_true]
    omega
  | case6 c rest st hin hv =>
    simp only [scanLoop, hin, hv, Bool.false_eq_true, if_false, if_true]
    by_cases ha : auto = true <;> simp [ha]

/-- The acquire scan never grows the slot table. -/
theorem scanLoop_length_le (auto : Bool) (ci : Option String) (env : Env) (tnow : Nat)
    (l : List Conn) (st : ScanSt) :
    (scanLoop auto ci env tnow l st).1.length ≤ l.length := by
  induction l, st using scanLoop.induct auto ci env tnow with
  | case1 st => simp [scanLoop]
  | case2 c rest st hin ih =>
    simp only [scanLoop, hin, if_true, List.length_cons]
    omega
  | case3 c rest st hin hv st1 c1 nid kc2 hcr =>
    simp only [scanLoop, hin, hv, hcr, Bool.false_eq_true, if_false, if_true]
    simp
  | case4 c st hin hv st1 nid kc2 hcr =>
    simp only [scanLoop, hin, hv, hcr, Bool.false_eq_true, if_false, if_true]
    simp
  | case5 c st hin hv st1 nid kc2 hcr st2 d rest2 ih =>
    have ih2 : (scanLoop auto ci env tnow rest2
        { nextId := nid, kc := kc2, kv := st.kv + 1, idle := st.idle - 1 }).1.length
          ≤ rest2.length := ih
    simp only [scanLoop, hin, hv, hcr, Bool.false_eq_true, if_false, if_true,
      List.length_cons]
    omega
  | case6 c rest st hin hv =>
    simp only [scanLoop, hin, hv, Bool.false_eq_true, if_false, if_true, List.length_cons]
    omega

/-- The acquire scan keeps the idle count exact: if idle_count was the number
of idle slots of the scanned suffix plus a surplus k, it still is afterwards. -/
theorem scanLoop_idle (auto : Bool) (ci : Option String) (env : Env) (tnow : Nat)
    (l : List Conn) (st : ScanSt) :
    ∀ k, st.idle = idleSlots l + k →
      (scanLoop auto ci env tnow l st).2.1.idle =
        idleSlots (scanLoop auto ci env tnow l st).1 + k := by
  induction l, st using scanLoop.induct auto ci env tnow with
  | case1 st => intro k hk; simpa [scanLoop, idleSlots] using hk
  | case2 c rest st hin ih =>
    intro k hk
    rw [idleSlots_cons, hin] at hk
    simp at hk
    simp only [scanLoop, hin, if_true]
    rw [idleSlots_cons, hin]
    simp
    have := ih k (by omega)
    omega
  | case3 c rest st hin hv st1 c1 nid kc2 hcr =>
    intro k hk
    simp only [Bool.not_eq_true] at hin
    rw [idleSlots_cons, hin] at hk
    simp at hk
    simp only [scanLoop, hin, hv, hcr, Bool.false_eq_true, if_false, if_true]
    rw [idleSlots_cons]
    simp
    split <;> omega
  | case4 c st hin hv st1 nid kc2 hcr =>
    intro k hk
    simp only [Bool.not_eq_true] at hin
    rw [idleSlots_cons, hin] at hk
    simp at hk
    have e0 : st1.idle = st.idle := rfl
    simp only [scanLoop, hin, hv, hcr, Bool.false_eq_true, if_false, if_true]
    simp [idleSlots] at hk ⊢
    omega
  | case5 c st hin hv st1 nid kc2 hcr st2 d rest2 ih =>
    intro k hk
    simp only [Bool.not_eq_true] at hin
    rw [idleSlots_cons, hin] at hk
    rw [idleSlots_cons] at hk
    have ih2 : ∀ k2, st.idle - 1 = idleSlots rest2 + k2 →
        (scanLoop auto ci env tnow rest2
            { nextId := nid, kc := kc2, kv := st.kv + 1, idle := st.idle - 1 }).2.1.idle =
          idleSlots (scanLoop auto ci env tnow rest2
            { nextId := nid, kc := kc2, kv := st.kv + 1, idle := st.idle - 1 }).1 + k2 := ih
    simp only [scanLoop, hin, hv, hcr, Bool.false_eq_true, if_false, if_true]
    rw [idleSlots_cons]
    cases hd : d.inUse
    · rw [hd] at hk
      simp at hk
      have := ih2 (k + 1) (by omega)
      simp at this ⊢
      omega
    · rw [hd] at hk
      simp at hk
      have := ih2 k (by omega)
      simp at this ⊢
      omega
  | case6 c rest st hin hv =>
    intro k hk
    simp only [Bool.not_eq_true] at hin
    rw [idleSlots_cons, hin] at hk
    simp at hk
    simp only [scanLoop, hin, hv, Bool.false_eq_true, if_false, if_true]
    rw [idleSlots_cons]
    by_cases ha : auto = true <;> simp [ha] <;> split <;> omega

/-- The acquire scan hands out only connections marked in_use. -/
theorem scanLoop_found_inUse (auto : Bool) (ci : Option String) (env : Env) (tnow : Nat)
    (l : List Conn) (st : ScanSt) :
    ∀ c, (scanLoop auto ci env tnow l st).2.2 = some c → c.inUse = true := by
  induction l, st using scanLoop.induct auto ci env tnow with
  | case1 st => simp [scanLoop]
  | case2 c rest st hin ih =>
    simpa only [scanLoop, hin, if_true] using ih
  | case3 c rest st hin hv st1 c1 nid kc2 hcr =>
    simp only [scanLoop, hin, hv, hcr, Bool.false_eq_true, if_false, if_true]
    intro x hx
    simp only [Option.some.injEq] at hx
    subst hx
    rfl
  | case4 c st hin hv st1 nid kc2 hcr =>
    simp [scanLoop, hin, hv, hcr]
  | case5 c st hin hv st1 nid kc2 hcr st2 d rest2 ih =>
    have ih2 : ∀ x, (scanLoop auto ci env tnow rest2
        { nextId := nid, kc := kc2, kv := st.kv + 1, idle := st.idle - 1 }).2.2 = some x →
          x.inUse = true := ih
    simpa only [scanLoop, hin, hv, hcr, Bool.false_eq_true, if_false, if_true] using ih2
  | case6 c rest st hin hv =>
    simp only [scanLoop, hin, hv, Bool.false_eq_true, if_false, if_true]
    intro x hx
    simp only [Option.some.injEq] at hx
    subst hx
    rfl

/-- Id bookkeeping of the acquire scan: stored ids stay bounded by
next_conn_id, every id of the result either was present before or is a fresh
id above the old next_conn_id, and distinctness of stored ids is preserved. -/
theorem scanLoop_ids (auto : Bool) (ci : Option String) (env : Env) (tnow : Nat)
    (l : List Conn) (st : ScanSt) :
    (∀ c ∈ l, c.connId ≤ st.nextId) →
      (∀ c ∈ (scanLoop auto ci env tnow l st).1,
          c.connId ≤ (scanLoop auto ci env tnow l st).2.1.nextId) ∧
      (∀ x ∈ idsOf (scanLoop auto ci env tnow l st).1, x ∈ idsOf l ∨ st.nextId < x) ∧
      ((idsOf l).Nodup → (idsOf (scanLoop auto ci env tnow l st).1).Nodup) := by
  induction l, st using scanLoop.induct auto ci env tnow with
  | case1 st => intro _; simp [scanLoop, idsOf]
  | case2 c rest st hin ih =>
    intro hb
    obtain ⟨j1, j2, j3⟩ := ih (fun x hx => hb x (List.mem_cons_of_mem c hx))
    have hmono := scanLoop_nextId_mono auto ci env tnow rest st
    simp only [scanLoop, hin, if_true]
    refine ⟨?_, ?_, ?_⟩
    · intro x hx
      rcases List.mem_cons.mp hx with h | h
      · rw [h]; exact le_trans (hb c (List.mem_cons_self c rest)) hmono
      · exact j1 x h
    · intro x hx
      rw [idsOf_cons] at hx
      rcases List.mem_cons.mp hx with h | h
      · exact Or.inl (by rw [idsOf_cons, h]; exact List.mem_cons_self _ _)
      · rcases j2 x h with h2 | h2
        · exact Or.inl (by rw [idsOf_cons]; exact List.mem_cons_of_mem _ h2)
        · exact Or.inr h2
    · intro hnd
      rw [idsOf_cons] at hnd ⊢
      rw [List.nodup_cons] at hnd ⊢
      refine ⟨?_, j3 hnd.2⟩
      intro hmem
      rcases j2 c.connId hmem with h2 | h2
      · exact hnd.1 h2
      · exact absurd (hb c (List.mem_cons_self c rest)) (by omega)
  | case3 c rest st hin hv st1 c1 nid kc2 hcr =>
    intro hb
    obtain ⟨e1, e2, e3⟩ := create_connection_some hcr
    have e0 : st1.nextId = st.nextId := rfl
    have ec : c1.connId = st.nextId + 1 := by rw [e3]
    simp only [scanLoop, hin, hv, hcr, Bool.false_eq_true, if_false, if_true]
    refine ⟨?_, ?_, ?_⟩
    · intro x hx
      rcases List.mem_cons.mp hx with h | h
      · subst h
        show c1.connId ≤ nid
        omega
      · have := hb x (List.mem_cons_of_mem c h)
        show x.connId ≤ nid
        omega
    · intro x hx
      rw [idsOf_cons] at hx
      rcases List.mem_cons.mp hx with h | h
      · have h3 : x = c1.connId := h
        exact Or.inr (by omega)
      · exact Or.inl (by rw [idsOf_cons]; exact List.mem_cons_of_mem _ h)
    · intro hnd
      rw [idsOf_cons] at hnd ⊢
      rw [List.nodup_cons] at hnd ⊢
      refine ⟨?_, hnd.2⟩
      intro hmem
      have hm2 : c1.connId ∈ idsOf rest := hmem
      have hall : ∀ x ∈ idsOf rest, x ≤ st.nextId := by
        intro x hx
        simp only [idsOf, List.mem_map] at hx
        obtain ⟨cc, hcc, rfl⟩ := hx
        exact hb cc (List.mem_cons_of_mem c hcc)
      have := hall _ hm2
      omega
  | case4 c st hin hv st1 nid kc2 hcr =>
    intro _
    simp [scanLoop, hin, hv, hcr, idsOf]
  | case5 c st hin hv st1 nid kc2 hcr st2 d rest2 ih =>
    intro hb
    obtain ⟨e1, e2⟩ := create_connection_none hcr
    have e0 : st1.nextId = st.nextId := rfl
    have hb2 : ∀ x ∈ rest2, x.connId ≤ nid := by
      intro x hx
      have := hb x (List.mem_cons_of_mem c (List.mem_cons_of_mem d hx))
      omega
    have ih2 : (∀ x ∈ rest2, x.connId ≤ nid) →
        (∀ x ∈ (scanLoop auto ci env tnow rest2
            { nextId := nid, kc := kc2, kv := st.kv + 1, idle := st.idle - 1 }).1,
          x.connId ≤ (scanLoop auto ci env tnow rest2
            { nextId := nid, kc := kc2, kv := st.kv + 1, idle := st.idle - 1 }).2.1.nextId) ∧
        (∀ x ∈ idsOf (scanLoop auto ci env tnow rest2
            { nextId := nid, kc := kc2, kv := st.kv + 1, idle := st.idle - 1 }).1,
          x ∈ idsOf rest2 ∨ nid < x) ∧
        ((idsOf rest2).Nodup → (idsOf (scanLoop auto ci env tnow rest2
            { nextId := nid, kc := kc2, kv := st.kv + 1, idle := st.idle - 1 }).1).Nodup) := ih
    obtain ⟨j1, j2, j3⟩ := ih2 hb2
    have hmono : nid ≤ (scanLoop auto ci env tnow rest2
        { nextId := nid, kc := kc2, kv := st.kv + 1, idle := st.idle - 1 }).2.1.nextId :=
      scanLoop_nextId_mono auto ci env tnow rest2
        { nextId := nid, kc := kc2, kv := st.kv + 1, idle := st.idle - 1 }
    simp only [scanLoop, hin, hv, hcr, Bool.false_eq_true, if_false, if_true]
    refine ⟨?_, ?_, ?_⟩
    · intro x hx
      rcases List.mem_cons.mp hx with h | h
      · rw [h]
        have := hb d (List.mem_cons_of_mem c (List.mem_cons_self d rest2))
        omega
      · exact j1 x h
    · intro x hx
      rw [idsOf_cons] at hx
      rcases List.mem_cons.mp hx with h | h
      · refine Or.inl ?_
        rw [idsOf_cons, idsOf_cons, h]
        exact List.mem_cons_of_mem _ (List.mem_cons_self _ _)
      · rcases j2 x h with h2 | h2
        · refine Or.inl ?_
          rw [idsOf_cons, idsOf_cons]
          exact List.mem_cons_of_mem _ (List.mem_cons_of_mem _ h2)
        · exact Or.inr (by omega)
    · intro hnd
      rw [idsOf_cons, idsOf_cons, List.nodup_cons, List.nodup_cons] at hnd
      rw [idsOf_cons, List.nodup_cons]
      refine ⟨?_, j3 hnd.2.2⟩
      intro hmem
      rcases j2 d.connId hmem with h2 | h2
      · exact hnd.2.1 h2
      · have := hb d (List.mem_cons_of_mem c (List.mem_cons_self d rest2))
        omega
  | case6 c rest st hin hv =>
    intro hb
    simp only [scanLoop, hin, hv, Bool.false_eq_true, if_false, if_true]
    have hnx : ((if auto = true then
        ({ nextId := st.nextId, kc := st.kc, kv := st.kv + 1, idle := st.idle } : ScanSt)
        else st)).nextId = st.nextId := by
      by_cases ha : auto = true <;> simp [ha]
    refine ⟨?_, ?_, ?_⟩
    · intro x hx
      rcases List.mem_cons.mp hx with h | h
      · subst h
        show c.connId ≤ _
        rw [hnx]
        exact hb c (List.mem_cons_self c rest)
      · show x.connId ≤ _
        rw [hnx]
        exact hb x (List.mem_cons_of_mem c h)
    · intro x hx
      rw [idsOf_cons] at hx
      rcases List.mem_cons.mp hx with h | h
      · refine Or.inl ?_
        rw [idsOf_cons]
        have h3 : x = c.connId := h
        rw [h3]
        exact List.mem_cons_self _ _
      · exact Or.inl (by rw [idsOf_cons]; exact List.mem_cons_of_mem _ h)
    · intro hnd
      rw [idsOf_cons] at hnd ⊢
      simpa using hnd

/-- Appending to the table adds the new slot to the idle count only when the
new connection is idle. -/
theorem idleSlots_append (l : List Conn) (c : Conn) :
    idleSlots (l ++ [c]) = idleSlots l + (if c.inUse then 0 else 1) := by
  cases h : c.inUse <;> simp [idleSlots, List.filter_append, h]

/-- A table whose connections are all idle has idle count equal to its size. -/
theorem idleSlots_of_all_idle {l : List Conn} (h : ∀ c ∈ l, c.inUse = false) :
    idleSlots l = l.length := by
  induction l with
  | nil => rfl
  | cons c rest ih =>
    rw [idleSlots_cons, h c (List.mem_cons_self c rest)]
    have := ih (fun x hx => h x (List.mem_cons_of_mem c hx))
    simp [this]
    omega

/-- The pool bookkeeping invariant: idle_count counts exactly the idle slots,
the table is bounded by max_connections, every stored id is bounded by the
id counter, and stored ids are distinct (so connection values identify
slots the way pointers do in the C code). -/
def PoolInv (p : Pool) : Prop :=
  p.idleCount = idleSlots p.connections ∧
  p.connections.length ≤ p.config.maxConnections ∧
  (∀ c ∈ p.connections, c.connId ≤ p.nextConnId) ∧
  (idsOf p.connections).Nodup

/-- The creation tail of the acquire iteration preserves the invariant. -/
theorem acquireFinish_inv (p : Pool) (env : Env) (tnow : Nat) (conns : List Conn)
    (st : ScanSt)
    (hidle : st.idle = idleSlots conns)
    (hmax : conns.length ≤ p.config.maxConnections)
    (hb : ∀ c ∈ conns, c.connId ≤ st.nextId)
    (hnd : (idsOf conns).Nodup) :
    PoolInv (acquireFinish p env tnow conns st).pool ∧
    (acquireFinish p env tnow conns st).pool.config = p.config := by
  simp only [acquireFinish]
  by_cases hroom : conns.length < p.config.maxConnections
  · simp only [hroom, if_true]
    rcases hcr : create_connection p.conninfo st.nextId st.kc env tnow with ⟨oc, nid, kc3⟩
    cases oc with
    | some c =>
      obtain ⟨e1, e2, e3⟩ := create_connection_some hcr
      refine ⟨⟨?_, ?_, ?_, ?_⟩, by trivial⟩
      · show st.idle = idleSlots (conns ++ [_])
        rw [idleSlots_append]
        simp [hidle]
      · simpa using hroom
      · intro x hx
        rcases List.mem_append.mp hx with hm | hm
        · have := hb x hm
          show x.connId ≤ nid
          omega
        · rcases List.mem_singleton.mp hm with rfl
          show c.connId ≤ nid
          rw [e3]
          simp
          omega
      · show (idsOf (conns ++ [_])).Nodup
        have hij : idsOf (conns ++ [{ c with inUse := true, lastActivity := tnow }]) =
            idsOf conns ++ [c.connId] := by simp [idsOf]
        rw [hij, List.nodup_append]
        refine ⟨hnd, List.nodup_singleton _, ?_⟩
        intro a ha
        simp only [List.mem_singleton]
        intro hEq
        subst hEq
        simp only [idsOf, List.mem_map] at ha
        obtain ⟨cc, hcc, hcid⟩ := ha
        have := hb cc hcc
        rw [e3] at hcid
        simp at hcid
        omega
    | none =>
      obtain ⟨e1, e2⟩ := create_connection_none hcr
      refine ⟨⟨hidle, le_of_lt hroom, ?_, hnd⟩, by trivial⟩
      intro x hx
      have := hb x hx
      show x.connId ≤ nid
      omega
  · simp only [hroom, if_false]
    exact ⟨⟨hidle, hmax, hb, hnd⟩, by trivial⟩

/-- One acquire iteration (idle scan, in-place replacement, optional fresh
creation) preserves the pool invariant. -/
theorem acquireIter_inv (p : Pool) (env : Env) (kc kv tnow : Nat) (h : PoolInv p) :
    PoolInv (acquireIter p env kc kv tnow).pool := by
  obtain ⟨h1, h2, h3, h4⟩ := h
  have hidle := scanLoop_idle p.config.autoReconnect p.conninfo env tnow p.connections
    { nextId := p.nextConnId, kc := kc, kv := kv, idle := p.idleCount } 0 (by simpa using h1)
  have hlen := scanLoop_length_le p.config.autoReconnect p.conninfo env tnow p.connections
    { nextId := p.nextConnId, kc := kc, kv := kv, idle := p.idleCount }
  obtain ⟨j1, j2, j3⟩ := scanLoop_ids p.config.autoReconnect p.conninfo env tnow p.connections
    { nextId := p.nextConnId, kc := kc, kv := kv, idle := p.idleCount } (by simpa using h3)
  rcases hs : scanLoop p.config.autoReconnect p.conninfo env tnow p.connections
      { nextId := p.nextConnId, kc := kc, kv := kv, idle := p.idleCount } with ⟨conns, st2, found⟩
  simp only [hs] at hidle hlen j1 j2 j3
  simp only [acquireIter, hs]
  cases found with
  | some c =>
    exact ⟨by simpa using hidle, le_trans hlen h2, j1, j3 h4⟩
  | none =>
    exact (acquireFinish_inv p env tnow conns st2 (by simpa using hidle)
      (le_trans hlen h2) j1 (j3 h4)).1

/-- Number of successful outcomes among n consecutive creation-oracle draws
starting at counter kc. -/
def succCount (env : Env) : Nat → Nat → Nat
  | _, 0 => 0
  | kc, n + 1 => (if env.createOk kc then 1 else 0) + succCount env (kc + 1) n

theorem succCount_pos_iff (env : Env) : ∀ n kc,
    0 < succCount env kc n ↔ ∃ i < n, env.createOk (kc + i) = true := by
  intro n
  induction n with
  | zero => intro kc; simp [succCount]
  | succ n ih =>
    intro kc
    by_cases hc : env.createOk kc
    · simp only [succCount, hc, if_true]
      constructor
      · intro _
        exact ⟨0, Nat.succ_pos n, by simpa using hc⟩
      · intro _
        omega
    · simp only [succCount, hc, Bool.false_eq_true, if_false, Nat.zero_add]
      rw [ih (kc + 1)]
      constructor
      · rintro ⟨i, hi, hok⟩
        exact ⟨i + 1, by omega, by rw [show kc + (i + 1) = kc + 1 + i by omega]; exact hok⟩
      · rintro ⟨i, hi, hok⟩
        cases i with
        | zero => simp at hok; exact absurd hok hc
        | succ j =>
          exact ⟨j, by omega, by rw [show kc + 1 + j = kc + (j + 1) by omega]; exact hok⟩

/-- Specification of the eager-creation loop of pgpool_create: it keeps the
successful attempts in slot order (their count is the oracle success count),
never creates more than n, assigns fresh strictly increasing ids, and yields
idle, raw-connected, transaction-free slots. -/
theorem createLoop_spec (s : String) (env : Env) (tnow : Nat) : ∀ n nid kc,
    (createLoop (some s) env tnow n nid kc).1.length = succCount env kc n ∧
    (createLoop (some s) env tnow n nid kc).1.length ≤ n ∧
    nid ≤ (createLoop (some s) env tnow n nid kc).2.1 ∧
    (∀ c ∈ (createLoop (some s) env tnow n nid kc).1,
      c.inUse = false ∧ c.hasRaw = true ∧ c.transactionActive = false ∧
      nid < c.connId ∧ c.connId ≤ (createLoop (some s) env tnow n nid kc).2.1) ∧
    (idsOf (createLoop (some s) env tnow n nid kc).1).Nodup := by
  intro n
  induction n with
  | zero => intro nid kc; simp [createLoop, succCount, idsOf]
  | succ n ih =>
    intro nid kc
    by_cases hc : env.createOk kc
    · obtain ⟨i1, i2, i3, i4, i5⟩ := ih (nid + 1) (kc + 1)
      have hred : createLoop (some s) env tnow (n + 1) nid kc =
          ({ connId := nid + 1, hasRaw := true, inUse := false, transactionActive := false,
             lastActivity := tnow, lastError := none, pending := [] } ::
            (createLoop (some s) env tnow n (nid + 1) (kc + 1)).1,
           (createLoop (some s) env tnow n (nid + 1) (kc + 1)).2.1,
           (createLoop (some s) env tnow n (nid + 1) (kc + 1)).2.2) := by
        simp [createLoop, create_connection, hc]
      rw [hred]
      refine ⟨?_, ?_, ?_, ?_, ?_⟩
      · simp only [List.length_cons, succCount, hc, if_true]
        omega
      · simp only [List.length_cons]
        omega
      · show nid ≤ (createLoop (some s) env tnow n (nid + 1) (kc + 1)).2.1
        omega
      · intro x hx
        rcases List.mem_cons.mp hx with hm | hm
        · rw [hm]
          refine ⟨rfl, rfl, rfl, by simp, by simp; omega⟩
        · obtain ⟨k1, k2, k3, k4, k5⟩ := i4 x hm
          exact ⟨k1, k2, k3, by omega, k5⟩
      · rw [idsOf_cons, List.nodup_cons]
        refine ⟨?_, i5⟩
        intro hmem
        simp only [idsOf, List.mem_map] at hmem
        obtain ⟨cc, hcc, hcid⟩ := hmem
        obtain ⟨k1, k2, k3, k4, k5⟩ := i4 cc hcc
        have hcid2 : cc.connId = nid + 1 := hcid
        omega
    · obtain ⟨i1, i2, i3, i4, i5⟩ := ih (nid + 1) (kc + 1)
      have hred : createLoop (some s) env tnow (n + 1) nid kc =
          createLoop (some s) env tnow n (nid + 1) (kc + 1) := by
        simp [createLoop, create_connection, hc]
      rw [hred]
      refine ⟨?_, by omega, by omega, ?_, i5⟩
      · simp only [succCount, hc, Bool.false_eq_true, if_false, Nat.zero_add]
        exact i1
      · intro x hx
        obtain ⟨k1, k2, k3, k4, k5⟩ := i4 x hx
        exact ⟨k1, k2, k3, by omega, k5⟩

/-- The min_connections field after the defaults pass. -/
theorem applyDefaults_min (config : Config) :
    (applyDefaults config).minConnections =
      if config.minConnections > 0 then config.minConnections else 1 := by
  simp only [applyDefaults, DEFAULT_CONFIG]
  split_ifs <;> rfl

/-- The max_connections field after the defaults pass. -/
theorem applyDefaults_max (config : Config) :
    (applyDefaults config).maxConnections =
      if config.maxConnections > 0 then config.maxConnections else 10 := by
  simp only [applyDefaults, DEFAULT_CONFIG]
  split_ifs <;> rfl

/-- A freshly created pool satisfies the invariant, is initialized and is not
shutting down. -/
theorem pgpool_create_inv {config : Config} {env : Env} {tnow : Nat} {p : Pool}
    (h : pgpool_create config env tnow = some p) :
    PoolInv p ∧ p.initialized = true ∧ p.shuttingDown = false := by
  unfold pgpool_create at h
  cases hci : config.conninfo with
  | none => rw [hci] at h; simp at h
  | some s =>
    rw [hci] at h
    by_cases hval : config.maxConnections < 1 ∨ config.minConnections > config.maxConnections
    · simp only [hval, if_true] at h
      simp at h
    · simp only [hval, if_false] at h
      obtain ⟨i1, i2, i3, i4, i5⟩ :=
        createLoop_spec s env tnow (applyDefaults config).minConnections 0 0
      by_cases hz : (createLoop (some s) env tnow
          (applyDefaults config).minConnections 0 0).1.length = 0
      · simp only [hz, if_true] at h
        simp at h
      · simp only [hz, if_false] at h
        have hminmax : (applyDefaults config).minConnections ≤
            (applyDefaults config).maxConnections := by
          rw [applyDefaults_min, applyDefaults_max]
          push_neg at hval
          split_ifs <;> omega
        have hp := Option.some.inj h
        subst hp
        refine ⟨⟨?_, ?_, ?_, ?_⟩, rfl, rfl⟩
        · show _ = idleSlots _
          rw [idleSlots_of_all_idle (fun c hc => (i4 c hc).1)]
        · show (createLoop (some s) env tnow (applyDefaults config).minConnections 0 0).1.length
              ≤ (applyDefaults config).maxConnections
          omega
        · intro c hc
          exact (i4 c hc).2.2.2.2
        · exact i5

theorem releaseSlots_not_found (cid tnow : Nat) : ∀ l : List Conn,
    (∀ c ∈ l, c.connId ≠ cid) → releaseSlots cid tnow l = none := by
  intro l
  induction l with
  | nil => intro _; rfl
  | cons c rest ih =>
    intro hb
    simp only [releaseSlots]
    rw [if_neg (hb c (List.mem_cons_self c rest))]
    rw [ih (fun x hx => hb x (List.mem_cons_of_mem c hx))]

theorem releaseSlots_found (cid tnow : Nat) : ∀ (l : List Conn) (i : Nat) (hi : i < l.length),
    (idsOf l).Nodup → (l.get ⟨i, hi⟩).connId = cid →
    releaseSlots cid tnow l = some (l.set i
      { l.get ⟨i, hi⟩ with
          inUse := false
          transactionActive := false
          lastActivity := tnow
          lastError := none },
      (l.get ⟨i, hi⟩).transactionActive) := by
  intro l
  induction l with
  | nil => intro i hi; simp at hi
  | cons c rest ih =>
    intro i hi hnd hid
    rw [idsOf_cons, List.nodup_cons] at hnd
    cases i with
    | zero =>
      have hid2 : c.connId = cid := by simpa using hid
      simp only [releaseSlots]
      rw [if_pos hid2]
      rfl
    | succ j =>
      have hj : j < rest.length := by simpa using hi
      have hid2 : (rest.get ⟨j, hj⟩).connId = cid := by simpa using hid
      have hcne : c.connId ≠ cid := by
        intro hEq
        apply hnd.1
        rw [hEq, ← hid2]
        simp only [idsOf, List.mem_map]
        exact ⟨rest.get ⟨j, hj⟩, List.get_mem rest j hj, rfl⟩
      simp only [releaseSlots]
      rw [if_neg hcne, ih j hj hnd.2 hid2]
      rfl

theorem releaseSlots_ids (cid tnow : Nat) : ∀ (l l2 : List Conn) (rb : Bool),
    releaseSlots cid tnow l = some (l2, rb) →
    idsOf l2 = idsOf l ∧ l2.length = l.length := by
  intro l
  induction l with
  | nil => intro l2 rb h; simp [releaseSlots] at h
  | cons c rest ih =>
    intro l2 rb h
    simp only [releaseSlots] at h
    by_cases hc : c.connId = cid
    · rw [if_pos hc] at h
      obtain ⟨h1, h2⟩ := Prod.mk.injEq .. ▸ Option.some.inj h
      rw [← h1]
      constructor
      · rw [idsOf_cons, idsOf_cons]
      · simp
    · rw [if_neg hc] at h
      cases hrec : releaseSlots cid tnow rest with
      | none => rw [hrec] at h; simp at h
      | some pr =>
        rw [hrec] at h
        obtain ⟨l3, rb2⟩ := pr
        simp only [Option.some.injEq, Prod.mk.injEq] at h
        obtain ⟨h1, h2⟩ := h
        obtain ⟨k1, k2⟩ := ih l3 rb2 hrec
        rw [← h1, idsOf_cons, idsOf_cons, k1]
        simp [k2]

theorem idleSlots_set_release : ∀ (l : List Conn) (i : Nat) (hi : i < l.length) (c2 : Conn),
    (l.get ⟨i, hi⟩).inUse = true → c2.inUse = false →
    idleSlots (l.set i c2) = idleSlots l + 1 := by
  intro l
  induction l with
  | nil => intro i hi; simp at hi
  | cons c rest ih =>
    intro i hi c2 hget hc
    cases i with
    | zero =>
      simp only [List.set]
      rw [idleSlots_cons, idleSlots_cons, hc]
      simp only [List.get] at hget
      rw [hget]
      simp
      omega
    | succ j =>
      have hj : j < rest.length := by simpa using hi
      simp only [List.set]
      rw [idleSlots_cons, idleSlots_cons]
      have := ih j hj c2 (by simpa using hget) hc
      omega

theorem idsOf_set_same : ∀ (l : List Conn) (i : Nat) (hi : i < l.length) (c2 : Conn),
    c2.connId = (l.get ⟨i, hi⟩).connId → idsOf (l.set i c2) = idsOf l := by
  intro l
  induction l with
  | nil => intro i hi; simp at hi
  | cons c rest ih =>
    intro i hi c2 hid
    cases i with
    | zero =>
      simp only [List.set, idsOf_cons]
      simp only [List.get] at hid
      rw [hid]
    | succ j =>
      have hj : j < rest.length := by simpa using hi
      simp only [List.set, idsOf_cons]
      rw [ih j hj c2 (by simpa using hid)]

/-- Releasing a checked-out member connection preserves the pool invariant. -/
theorem pgpool_release_inv_strict (p : Pool) (cid tnow : Nat) (h : PoolInv p)
    (hex : ∃ c ∈ p.connections, c.connId = cid ∧ c.inUse = true) :
    PoolInv (pgpool_release p cid tnow).pool := by
  obtain ⟨h1, h2, h3, h4⟩ := h
  obtain ⟨c, hc, hcid, hcin⟩ := hex
  by_cases hinit : p.initialized
  · obtain ⟨⟨i, hi⟩, hg⟩ := List.get_of_mem hc
    simp only [pgpool_release, hinit, if_true]
    rw [releaseSlots_found cid tnow p.connections i hi h4 (by rw [hg]; exact hcid)]
    refine ⟨?_, ?_, ?_, ?_⟩
    · show p.idleCount + 1 = idleSlots (p.connections.set i _)
      rw [idleSlots_set_release p.connections i hi _ (by rw [hg]; exact hcin) rfl]
      omega
    · show (p.connections.set i _).length ≤ _
      rw [List.length_set]
      exact h2
    · intro x hx
      have hxid : x.connId ∈ idsOf (p.connections.set i
          { p.connections.get ⟨i, hi⟩ with
              inUse := false
              transactionActive := false
              lastActivity := tnow
              lastError := none }) := by
        simp only [idsOf, List.mem_map]
        exact ⟨x, hx, rfl⟩
      rw [idsOf_set_same p.connections i hi
        { p.connections.get ⟨i, hi⟩ with
            inUse := false
            transactionActive := false
            lastActivity := tnow
            lastError := none } rfl] at hxid
      simp only [idsOf, List.mem_map] at hxid
      obtain ⟨y, hy, hyx⟩ := hxid
      show x.connId ≤ p.nextConnId
      rw [← hyx]
      exact h3 y hy
    · show (idsOf (p.connections.set i _)).Nodup
      rw [idsOf_set_same p.connections i hi
        { p.connections.get ⟨i, hi⟩ with
            inUse := false
            transactionActive := false
            lastActivity := tnow
            lastError := none } rfl]
      exact h4
  · simp [pgpool_release, hinit]
    exact ⟨h1, h2, h3, h4⟩

/-- Pool states reachable through the pool API: a successful pgpool_create,
any number of acquire iterations (with arbitrary oracles and wall-clock
times), and pgpool_release calls.  When strict is true, every release step is
required to target a member connection that is currently checked out — the
well-formed single-release discipline; when strict is false, any release call
is a step. -/
inductive PoolReach : Bool → Pool → Prop where
  | created (strict : Bool) (config : Config) (env : Env) (tnow : Nat) (p : Pool) :
      pgpool_create config env tnow = some p → PoolReach strict p
  | acquireStep (strict : Bool) (p : Pool) (env : Env) (kc kv tnow : Nat) :
      PoolReach strict p → PoolReach strict (acquireIter p env kc kv tnow).pool
  | releaseStep (strict : Bool) (p : Pool) (cid tnow : Nat) :
      PoolReach strict p →
      (strict = true → ∃ c ∈ p.connections, c.connId = cid ∧ c.inUse = true) →
      PoolReach strict (pgpool_release p cid tnow).pool

/-- Every pool state reachable under the well-formed release discipline
satisfies the bookkeeping invariant. -/
theorem poolReach_inv {p : Pool} (h : PoolReach true p) : PoolInv p := by
  induction h with
  | created config env tnow q hq => exact (pgpool_create_inv hq).1
  | acquireStep q env kc kv tnow _ ih => exact acquireIter_inv q env kc kv tnow ih
  | releaseStep q cid tnow _ hex ih =>
    exact pgpool_release_inv_strict q cid tnow ih (hex rfl)

/-- Concrete configuration used to exhibit pool states: one slot, one eager
connection, target string present. -/
def cexConfig : Config :=
  { conninfo := some "db"
    minConnections := 1
    maxConnections := 1
    connectTimeout := 0
    autoReconnect := false
    hasConnInitCb := false
    hasConnCloseCb := false }

/-- Environment in which every creation attempt and validation probe
succeeds. -/
def cexEnv : Env := { createOk := fun _ => true, validOk := fun _ => true }

/-- The pool pgpool_create builds from cexConfig under cexEnv at time 0. -/
def cexPool : Pool :=
  { connections := [{ connId := 1, hasRaw := true, inUse := false, transactionActive := false,
                      lastActivity := 0, lastError := none, pending := [] }]
    idleCount := 1
    config := { conninfo := none, minConnections := 1, maxConnections := 1,
                connectTimeout := 5, autoReconnect := true,
                hasConnInitCb := false, hasConnCloseCb := false }
    conninfo := some "db"
    shuttingDown := false
    initialized := true
    nextConnId := 1 }

theorem cexPool_created : pgpool_create cexConfig cexEnv 0 = some cexPool := by decide

/-- C1, counterexample to the claim as stated.  The claim quantifies over any
sequence of pgpool_create / pgpool_acquire / pgpool_release steps, but
pgpool_release checks only that the released connection belongs to the pool,
not that it is checked out: releasing the idle connection of a freshly
created one-slot pool is such a step and drives idle_count to 2 while
connection_count stays 1, violating idle_count ≤ connection_count. -/
theorem C1_pool_counts_counterexample :
    PoolReach false (pgpool_release cexPool 1 0).pool ∧
    (pgpool_release cexPool 1 0).pool.idleCount = 2 ∧
    (pgpool_release cexPool 1 0).pool.connections.length = 1 ∧
    ¬((pgpool_release cexPool 1 0).pool.idleCount ≤
        (pgpool_release cexPool 1 0).pool.connections.length) := by
  refine ⟨PoolReach.releaseStep false cexPool 1 0
      (PoolReach.created false cexConfig cexEnv 0 cexPool cexPool_created)
      (by simp), by decide, by decide, by decide⟩

/-- C1 (amended): in every pool state reachable by pgpool_create,
pgpool_acquire iterations (including in-place connection replacement) and
pgpool_release steps, provided each release targets a connection of the pool
that is currently checked out (in_use) — the discipline the header documents
for release — idle_count ≤ connection_count ≤ config.max_connections holds,
every slot is either checked out or idle (the two slot counts partition the
table), and hence the number of simultaneously checked-out connections never
exceeds max_connections.  Without the release restriction the claim fails,
see the counterexample. -/
theorem C1_pool_counts_invariant (p : Pool) (h : PoolReach true p) :
    p.idleCount ≤ p.connections.length ∧
    p.connections.length ≤ p.config.maxConnections ∧
    busySlots p.connections + idleSlots p.connections = p.connections.length ∧
    busySlots p.connections ≤ p.config.maxConnections := by
  obtain ⟨h1, h2, h3, h4⟩ := poolReach_inv h
  have hb := busySlots_add_idleSlots p.connections
  have hle := idleSlots_le_length p.connections
  exact ⟨by omega, h2, hb, by omega⟩

/-- C1 witness: the amended invariant evaluated on the concrete freshly
created pool. -/
theorem C1_pool_counts_invariant_witness :
    cexPool.idleCount ≤ cexPool.connections.length ∧
    cexPool.connections.length ≤ cexPool.config.maxConnections ∧
    busySlots cexPool.connections + idleSlots cexPool.connections =
      cexPool.connections.length ∧
    busySlots cexPool.connections ≤ cexPool.config.maxConnections :=
  C1_pool_counts_invariant cexPool
    (PoolReach.created true cexConfig cexEnv 0 cexPool cexPool_created)


/-- The acquire loop returns NULL as soon as it observes the shutting-down
flag at loop entry, touching nothing else. -/
theorem acquireLoop_shutdown (t : Int) (env : Env) (tnow : Nat) (p : Pool)
    (kc kv : Nat) (evs : List WaitEv) (hs : p.shuttingDown = true) :
    acquireLoop t env tnow evs p kc kv = AcqOut.failedAcq p := by
  cases evs <;> simp [acquireLoop, acquireOnce, hs]

/-- With timeout 0 the acquire loop never consumes a wait event. -/
theorem acquireLoop_zero_indep (env : Env) (tnow : Nat) (p : Pool) (kc kv : Nat)
    (evs : List WaitEv) :
    acquireLoop 0 env tnow evs p kc kv = acquireLoop 0 env tnow [] p kc kv := by
  cases evs with
  | nil => rfl
  | cons ev rest =>
    by_cases hs : p.shuttingDown
    · simp [acquireLoop, acquireOnce, hs]
    · cases hacq : (acquireIter p env kc kv tnow).acquired <;>
        simp [acquireLoop, acquireOnce, hs, hacq]

/-- With timeout 0 the acquire loop yields the scan/create outcome of its
single iteration. -/
theorem acquireLoop_zero_match (env : Env) (tnow : Nat) (p : Pool) (kc kv : Nat)
    (evs : List WaitEv) (hs : p.shuttingDown = false) :
    acquireLoop 0 env tnow evs p kc kv =
      (match (acquireIter p env kc kv tnow).acquired with
        | some c => AcqOut.got (acquireIter p env kc kv tnow).pool c
        | none => AcqOut.failedAcq (acquireIter p env kc kv tnow).pool) := by
  cases evs <;>
    cases hacq : (acquireIter p env kc kv tnow).acquired <;>
      simp [acquireLoop, acquireOnce, hs, hacq]

/-- With a negative timeout the acquire loop returns NULL only when it has
observed the shutting-down flag at a loop entry. -/
theorem acquireLoop_neg_failed_shutdown (t : Int) (env : Env) (tnow : Nat)
    (ht : t < 0) :
    ∀ (evs : List WaitEv) (p : Pool) (kc kv : Nat) (q : Pool),
      acquireLoop t env tnow evs p kc kv = AcqOut.failedAcq q →
      q.shuttingDown = true := by
  intro evs
  induction evs with
  | nil =>
    intro p kc kv q h
    by_cases hs : p.shuttingDown
    · simp only [acquireLoop, acquireOnce, hs, if_true] at h
      simp only [AcqOut.failedAcq.injEq] at h
      rw [← h]
      exact hs
    · cases hacq : (acquireIter p env kc kv tnow).acquired <;>
        simp [acquireLoop, acquireOnce, hs, hacq, show ¬(t = 0) by omega] at h
  | cons ev rest ih =>
    intro p kc kv q h
    by_cases hs : p.shuttingDown
    · simp only [acquireLoop, acquireOnce, hs, if_true] at h
      simp only [AcqOut.failedAcq.injEq] at h
      rw [← h]
      exact hs
    · cases hacq : (acquireIter p env kc kv tnow).acquired with
      | some c => simp [acquireLoop, acquireOnce, hs, hacq] at h
      | none =>
        simp only [acquireLoop, acquireOnce, hs, Bool.false_eq_true, if_false, hacq,
          show ¬(t = 0) by omega, if_false, show ¬(t > 0) by omega] at h
        cases ev with
        | wake q2 => exact ih q2 _ _ q h
        | timedOutEv => exact ih _ _ _ q h
        | waitErrEv => exact ih _ _ _ q h

/-- With a positive timeout, when an iteration produced nothing and the timed
wait reports ETIMEDOUT, the acquire loop returns NULL at once. -/
theorem acquireLoop_pos_timedOut (t : Int) (env : Env) (tnow : Nat) (p : Pool)
    (kc kv : Nat) (evs : List WaitEv) (ht : 0 < t) (hs : p.shuttingDown = false)
    (hacq : (acquireIter p env kc kv tnow).acquired = none) :
    acquireLoop t env tnow (WaitEv.timedOutEv :: evs) p kc kv =
      AcqOut.failedAcq (acquireIter p env kc kv tnow).pool := by
  simp [acquireLoop, acquireOnce, hs, hacq, show ¬(t = 0) by omega, ht]

/-- C2: for every initialized pool, pgpool_acquire with timeout_ms = 0
returns without blocking and without consuming any wait event — a connection
exactly when the single scan/create iteration produces one, otherwise NULL;
with timeout_ms < 0 it can return NULL only after observing the
shutting-down flag at a loop entry (otherwise it blocks until a connection
is produced); with timeout_ms > 0 it returns NULL as soon as the timed wait
reports that the deadline expired; and whenever the shutting-down flag is
observed at loop entry it returns NULL immediately. -/
theorem C2_acquire_timeout_semantics :
    (∀ (p : Pool) (env : Env) (kc kv tnow : Nat) (evs : List WaitEv),
        pgpool_acquire p 0 env kc kv tnow evs = pgpool_acquire p 0 env kc kv tnow []) ∧
    (∀ (p q : Pool) (env : Env) (kc kv tnow : Nat) (evs : List WaitEv),
        pgpool_acquire p 0 env kc kv tnow evs ≠ AcqOut.blockedAcq q) ∧
    (∀ (p : Pool) (env : Env) (kc kv tnow : Nat) (evs : List WaitEv),
        p.initialized = true → p.shuttingDown = false →
        pgpool_acquire p 0 env kc kv tnow evs =
          (match (acquireIter p env kc kv tnow).acquired with
            | some c => AcqOut.got (acquireIter p env kc kv tnow).pool c
            | none => AcqOut.failedAcq (acquireIter p env kc kv tnow).pool)) ∧
    (∀ (t : Int) (p q : Pool) (env : Env) (kc kv tnow : Nat) (evs : List WaitEv),
        t < 0 → p.initialized = true →
        pgpool_acquire p t env kc kv tnow evs = AcqOut.failedAcq q →
        q.shuttingDown = true) ∧
    (∀ (t : Int) (p : Pool) (env : Env) (kc kv tnow : Nat) (evs : List WaitEv),
        0 < t → p.initialized = true → p.shuttingDown = false →
        (acquireIter p env kc kv tnow).acquired = none →
        pgpool_acquire p t env kc kv tnow (WaitEv.timedOutEv :: evs) =
          AcqOut.failedAcq (acquireIter p env kc kv tnow).pool) ∧
    (∀ (t : Int) (p : Pool) (env : Env) (kc kv tnow : Nat) (evs : List WaitEv),
        p.initialized = true → p.shuttingDown = true →
        pgpool_acquire p t env kc kv tnow evs = AcqOut.failedAcq p) := by
  refine ⟨?_, ?_, ?_, ?_, ?_, ?_⟩
  · intro p env kc kv tnow evs
    by_cases hi : p.initialized <;>
      simp [pgpool_acquire, hi, acquireLoop_zero_indep]
  · intro p q env kc kv tnow evs
    by_cases hi : p.initialized
    · simp only [pgpool_acquire, hi, if_true]
      by_cases hs : p.shuttingDown
      · rw [acquireLoop_shutdown 0 env tnow p kc kv evs hs]
        simp
      · rw [acquireLoop_zero_match env tnow p kc kv evs (by simpa using hs)]
        cases hacq : (acquireIter p env kc kv tnow).acquired <;> simp [hacq]
    · simp [pgpool_acquire, hi]
  · intro p env kc kv tnow evs hi hs
    simp only [pgpool_acquire, hi, if_true]
    exact acquireLoop_zero_match env tnow p kc kv evs hs
  · intro t p q env kc kv tnow evs ht hi h
    simp only [pgpool_acquire, hi, if_true] at h
    exact acquireLoop_neg_failed_shutdown t env tnow ht evs p kc kv q h
  · intro t p env kc kv tnow evs ht hi hs hacq
    simp only [pgpool_acquire, hi, if_true]
    exact acquireLoop_pos_timedOut t env tnow p kc kv evs ht hs hacq
  · intro t p env kc kv tnow evs hi hs
    simp only [pgpool_acquire, hi, if_true]
    exact acquireLoop_shutdown t env tnow p kc kv evs hs

/-- Oracle environment for the C2 witness. -/
def wEnv : Env := { createOk := fun _ => true, validOk := fun _ => true }

/-- An initialized pool whose single slot is checked out with the table at
max_connections: an acquire iteration produces nothing. -/
def wBusyPool : Pool :=
  { connections := [{ connId := 1, hasRaw := true, inUse := true, transactionActive := false,
                      lastActivity := 0, lastError := none, pending := [] }]
    idleCount := 0
    config := { conninfo := none, minConnections := 1, maxConnections := 1,
                connectTimeout := 5, autoReconnect := true,
                hasConnInitCb := false, hasConnCloseCb := false }
    conninfo := some "db"
    shuttingDown := false
    initialized := true
    nextConnId := 1 }

/-- The same pool while it is being destroyed. -/
def wShutPool : Pool :=
  { wBusyPool with shuttingDown := true }

/-- C2 witness: the timeout-mode facts instantiated on concrete pools. -/
theorem C2_acquire_timeout_semantics_witness :
    (pgpool_acquire wBusyPool 0 wEnv 0 0 0 [WaitEv.timedOutEv] =
      pgpool_acquire wBusyPool 0 wEnv 0 0 0 []) ∧
    (pgpool_acquire wBusyPool 0 wEnv 0 0 0 [] ≠ AcqOut.blockedAcq wBusyPool) ∧
    (pgpool_acquire wBusyPool 0 wEnv 0 0 0 [] =
      (match (acquireIter wBusyPool wEnv 0 0 0).acquired with
        | some c => AcqOut.got (acquireIter wBusyPool wEnv 0 0 0).pool c
        | none => AcqOut.failedAcq (acquireIter wBusyPool wEnv 0 0 0).pool)) ∧
    wShutPool.shuttingDown = true ∧
    (pgpool_acquire wBusyPool 7 wEnv 0 0 0 [WaitEv.timedOutEv] =
      AcqOut.failedAcq (acquireIter wBusyPool wEnv 0 0 0).pool) ∧
    (pgpool_acquire wShutPool (-1) wEnv 0 0 0 [] = AcqOut.failedAcq wShutPool) := by
  obtain ⟨a1, a2, a3, a4, a5, a6⟩ := C2_acquire_timeout_semantics
  exact ⟨a1 wBusyPool wEnv 0 0 0 [WaitEv.timedOutEv],
    a2 wBusyPool wBusyPool wEnv 0 0 0 [],
    a3 wBusyPool wEnv 0 0 0 [] (by rfl) (by rfl),
    a4 (-1) wShutPool wShutPool wEnv 0 0 0 [] (by decide) (by rfl) (by rfl),
    a5 7 wBusyPool wEnv 0 0 0 [] (by decide) (by rfl) (by rfl) (by rfl),
    a6 (-1) wShutPool wEnv 0 0 0 [] (by rfl) (by rfl)⟩

/-- Shape of a successful pgpool_create: the table holds exactly the
successful eager-creation attempts (one oracle draw per attempted slot, the
attempt count being the effective min_connections after defaults). -/
theorem pgpool_create_some_len {config : Config} {env : Env} {tnow : Nat} {p : Pool}
    (h : pgpool_create config env tnow = some p) :
    p.connections.length = succCount env 0 (applyDefaults config).minConnections ∧
    1 ≤ p.connections.length ∧
    p.connections.length ≤ (applyDefaults config).minConnections := by
  unfold pgpool_create at h
  cases hci : config.conninfo with
  | none => rw [hci] at h; simp at h
  | some s =>
    rw [hci] at h
    by_cases hval : config.maxConnections < 1 ∨ config.minConnections > config.maxConnections
    · simp only [hval, if_true] at h
      simp at h
    · simp only [hval, if_false] at h
      obtain ⟨i1, i2, i3, i4, i5⟩ :=
        createLoop_spec s env tnow (applyDefaults config).minConnections 0 0
      by_cases hz : (createLoop (some s) env tnow
          (applyDefaults config).minConnections 0 0).1.length = 0
      · simp only [hz, if_true] at h
        simp at h
      · simp only [hz, if_false] at h
        have hp := Option.some.inj h
        subst hp
        refine ⟨i1, ?_, i2⟩
        show 1 ≤ (createLoop (some s) env tnow (applyDefaults config).minConnections 0 0).1.length
        omega

/-- C3: pgpool_create fails, retaining no pool, when the target string is
missing, when max_connections < 1, or when min_connections exceeds
max_connections; otherwise it eagerly attempts min_connections creations
(the effective minimum after the documented defaults), tolerates individual
failures, and succeeds exactly when at least one attempt succeeded — the
created pool holding exactly the successful connections. -/
theorem C3_create_semantics :
    (∀ (config : Config) (env : Env) (tnow : Nat),
        config.conninfo = none → pgpool_create config env tnow = none) ∧
    (∀ (config : Config) (env : Env) (tnow : Nat),
        config.maxConnections < 1 → pgpool_create config env tnow = none) ∧
    (∀ (config : Config) (env : Env) (tnow : Nat),
        config.minConnections > config.maxConnections →
        pgpool_create config env tnow = none) ∧
    (∀ (config : Config) (env : Env) (tnow : Nat),
        config.conninfo.isSome = true → 1 ≤ config.maxConnections →
        config.minConnections ≤ config.maxConnections →
        ((pgpool_create config env tnow).isSome = true ↔
          0 < succCount env 0 (applyDefaults config).minConnections)) ∧
    (∀ (config : Config) (env : Env) (tnow : Nat) (p : Pool),
        pgpool_create config env tnow = some p →
        p.connections.length = succCount env 0 (applyDefaults config).minConnections ∧
        1 ≤ p.connections.length ∧
        p.connections.length ≤ (applyDefaults config).minConnections) ∧
    (∀ (env : Env) (kc n : Nat),
        0 < succCount env kc n ↔ ∃ i < n, env.createOk (kc + i) = true) := by
  refine ⟨?_, ?_, ?_, ?_, ?_, ?_⟩
  · intro config env tnow h
    simp [pgpool_create, h]
  · intro config env tnow h
    unfold pgpool_create
    cases hci : config.conninfo with
    | none => rfl
    | some s => rw [if_pos (Or.inl h)]
  · intro config env tnow h
    unfold pgpool_create
    cases hci : config.conninfo with
    | none => rfl
    | some s => rw [if_pos (Or.inr h)]
  · intro config env tnow hsome hmax hminmax
    unfold pgpool_create
    cases hci : config.conninfo with
    | none => rw [hci] at hsome; simp at hsome
    | some s =>
      rw [if_neg (by push_neg; omega)]
      obtain ⟨i1, i2, i3, i4, i5⟩ :=
        createLoop_spec s env tnow (applyDefaults config).minConnections 0 0
      by_cases hz : (createLoop (some s) env tnow
          (applyDefaults config).minConnections 0 0).1.length = 0
      · rw [if_pos hz]
        simp only [Option.isSome_none, Bool.false_eq_true, false_iff]
        omega
      · rw [if_neg hz]
        simp only [Option.isSome_some, true_iff]
        omega
  · intro config env tnow p h
    exact pgpool_create_some_len h
  · exact fun env kc n => succCount_pos_iff env n kc

/-- C3 witness: the creation facts evaluated on concrete configurations. -/
theorem C3_create_semantics_witness :
    (pgpool_create
        { conninfo := none, minConnections := 1, maxConnections := 1, connectTimeout := 0,
          autoReconnect := false, hasConnInitCb := false, hasConnCloseCb := false }
        { createOk := fun _ => true, validOk := fun _ => true } 0 = none) ∧
    (pgpool_create
        { conninfo := some "db", minConnections := 0, maxConnections := 0, connectTimeout := 0,
          autoReconnect := false, hasConnInitCb := false, hasConnCloseCb := false }
        { createOk := fun _ => true, validOk := fun _ => true } 0 = none) ∧
    (pgpool_create
        { conninfo := some "db", minConnections := 5, maxConnections := 2, connectTimeout := 0,
          autoReconnect := false, hasConnInitCb := false, hasConnCloseCb := false }
        { createOk := fun _ => true, validOk := fun _ => true } 0 = none) ∧
    ((pgpool_create
        { conninfo := some "db", minConnections := 2, maxConnections := 3, connectTimeout := 0,
          autoReconnect := false, hasConnInitCb := false, hasConnCloseCb := false }
        { createOk := fun _ => true, validOk := fun _ => true } 0).isSome = true ↔
      0 < succCount { createOk := fun _ => true, validOk := fun _ => true } 0
        (applyDefaults
          { conninfo := some "db", minConnections := 2, maxConnections := 3, connectTimeout := 0,
            autoReconnect := false, hasConnInitCb := false,
            hasConnCloseCb := false }).minConnections) ∧
    ((pgpool_create
        { conninfo := some "db", minConnections := 2, maxConnections := 3, connectTimeout := 0,
          autoReconnect := false, hasConnInitCb := false, hasConnCloseCb := false }
        { createOk := fun _ => true, validOk := fun _ => true } 0).elim 0
          (fun p => p.connections.length) = 2) ∧
    (0 < succCount { createOk := fun _ => true, validOk := fun _ => true } 0 2 ↔
      ∃ i < 2, ({ createOk := fun _ => true, validOk := fun _ => true } : Env).createOk (0 + i)
        = true) := by
  obtain ⟨a1, a2, a3, a4, a5, a6⟩ := C3_create_semantics
  refine ⟨a1 _ _ 0 rfl, a2 _ _ 0 (by decide), a3 _ _ 0 (by decide),
    a4 _ _ 0 (by decide) (by decide) (by decide), ?_, a6 _ 0 2⟩
  have := a5
    { conninfo := some "db", minConnections := 2, maxConnections := 3, connectTimeout := 0,
      autoReconnect := false, hasConnInitCb := false, hasConnCloseCb := false }
    { createOk := fun _ => true, validOk := fun _ => true } 0
  rw [show pgpool_create
      { conninfo := some "db", minConnections := 2, maxConnections := 3, connectTimeout := 0,
        autoReconnect := false, hasConnInitCb := false, hasConnCloseCb := false }
      { createOk := fun _ => true, validOk := fun _ => true } 0 =
      some { connections :=
              [{ connId := 1, hasRaw := true, inUse := false, transactionActive := false,
                 lastActivity := 0, lastError := none, pending := [] },
               { connId := 2, hasRaw := true, inUse := false, transactionActive := false,
                 lastActivity := 0, lastError := none, pending := [] }]
             idleCount := 2
             config := { conninfo := none, minConnections := 2, maxConnections := 3,
                         connectTimeout := 5, autoReconnect := true,
                         hasConnInitCb := false, hasConnCloseCb := false }
             conninfo := some "db"
             shuttingDown := false
             initialized := true
             nextConnId := 2 } from by decide]
  have h2 := this _ (by
    rw [show pgpool_create
        { conninfo := some "db", minConnections := 2, maxConnections := 3, connectTimeout := 0,
          autoReconnect := false, hasConnInitCb := false, hasConnCloseCb := false }
        { createOk := fun _ => true, validOk := fun _ => true } 0 =
        some { connections :=
                [{ connId := 1, hasRaw := true, inUse := false, transactionActive := false,
                   lastActivity := 0, lastError := none, pending := [] },
                 { connId := 2, hasRaw := true, inUse := false, transactionActive := false,
                   lastActivity := 0, lastError := none, pending := [] }]
               idleCount := 2
               config := { conninfo := none, minConnections := 2, maxConnections := 3,
                           connectTimeout := 5, autoReconnect := true,
                           hasConnInitCb := false, hasConnCloseCb := false }
               conninfo := some "db"
               shuttingDown := false
               initialized := true
               nextConnId := 2 } from by decide])
  simpa using h2.1

/-- C10: for every configuration whose max_connections field is 0,
pgpool_create fails and returns no pool: the max_connections < 1 validation
runs on the raw configuration, before the defaults pass would have replaced
the zero by DEFAULT_CONFIG.maxConnections = 10, so a caller who
zero-initializes the structure and relies on the documented defaults always
gets a creation failure. -/
theorem C10_max_zero_rejected :
    (∀ (config : Config) (env : Env) (tnow : Nat),
        config.maxConnections = 0 → pgpool_create config env tnow = none) ∧
    (∀ config : Config, config.maxConnections = 0 →
        (applyDefaults config).maxConnections = 10) ∧
    DEFAULT_CONFIG.minConnections = 1 ∧ DEFAULT_CONFIG.maxConnections = 10 := by
  refine ⟨?_, ?_, rfl, rfl⟩
  · intro config env tnow h
    unfold pgpool_create
    cases hci : config.conninfo with
    | none => rfl
    | some s => rw [if_pos (Or.inl (by omega))]
  · intro config h
    rw [applyDefaults_max, h]
    simp

/-- C10 witness: a zero-initialized configuration (with only the target set)
is rejected even though the defaults would have allowed max = 10. -/
theorem C10_max_zero_rejected_witness :
    pgpool_create
      { conninfo := some "db", minConnections := 0, maxConnections := 0, connectTimeout := 0,
        autoReconnect := false, hasConnInitCb := false, hasConnCloseCb := false }
      { createOk := fun _ => true, validOk := fun _ => true } 0 = none ∧
    (applyDefaults
      { conninfo := some "db", minConnections := 0, maxConnections := 0, connectTimeout := 0,
        autoReconnect := false, hasConnInitCb := false,
        hasConnCloseCb := false }).maxConnections = 10 := by
  obtain ⟨a1, a2, a3, a4⟩ := C10_max_zero_rejected
  exact ⟨a1 _ _ 0 rfl, a2 _ rfl⟩

/-- C4: pgpool_release on a connection that does not belong to the pool is a
no-op — the pool value, every counter and every slot unchanged, only the
not-owned warning emitted, no waiter signalled, no ROLLBACK issued; on a
member connection it marks the slot idle, clears the transaction flag and the
stored error, stamps activity, increments the idle count, wakes exactly one
waiter, and issues a best-effort ROLLBACK exactly when a transaction was
active on the slot. -/
theorem C4_release_semantics :
    (∀ (p : Pool) (cid tnow : Nat), p.initialized = true →
        (∀ c ∈ p.connections, c.connId ≠ cid) →
        pgpool_release p cid tnow =
          { pool := p, notOwnedWarning := true, rolledBack := false, signals := 0 }) ∧
    (∀ (p : Pool) (cid tnow i : Nat) (hi : i < p.connections.length),
        p.initialized = true → (idsOf p.connections).Nodup →
        (p.connections.get ⟨i, hi⟩).connId = cid →
        pgpool_release p cid tnow =
          { pool := { p with
              connections := p.connections.set i
                { p.connections.get ⟨i, hi⟩ with
                    inUse := false
                    transactionActive := false
                    lastActivity := tnow
                    lastError := none }
              idleCount := p.idleCount + 1 }
            notOwnedWarning := false
            rolledBack := (p.connections.get ⟨i, hi⟩).transactionActive
            signals := 1 }) := by
  constructor
  · intro p cid tnow hinit hb
    simp only [pgpool_release, hinit, if_true]
    rw [releaseSlots_not_found cid tnow p.connections hb]
  · intro p cid tnow i hi hinit hnd hid
    simp only [pgpool_release, hinit, if_true]
    rw [releaseSlots_found cid tnow p.connections i hi hnd hid]

/-- A pool with a checked-out connection (id 1, inside a transaction, with a
stored error) and an idle one (id 2), used to evaluate the release facts. -/
def wRelPool : Pool :=
  { connections := [{ connId := 1, hasRaw := true, inUse := true, transactionActive := true,
                      lastActivity := 0, lastError := some "boom", pending := [] },
                    { connId := 2, hasRaw := true, inUse := false, transactionActive := false,
                      lastActivity := 0, lastError := none, pending := [] }]
    idleCount := 1
    config := { conninfo := none, minConnections := 1, maxConnections := 2,
                connectTimeout := 5, autoReconnect := true,
                hasConnInitCb := false, hasConnCloseCb := false }
    conninfo := some "db"
    shuttingDown := false
    initialized := true
    nextConnId := 2 }

/-- C4 witness: release of a non-member id is a no-op with a warning, and
release of the checked-out member rolls back, clears, and signals one
waiter. -/
theorem C4_release_semantics_witness :
    pgpool_release wRelPool 99 5 =
      { pool := wRelPool, notOwnedWarning := true, rolledBack := false, signals := 0 } ∧
    pgpool_release wRelPool 1 5 =
      { pool := { wRelPool with
          connections := wRelPool.connections.set 0
            { wRelPool.connections.get ⟨0, by decide⟩ with
                inUse := false
                transactionActive := false
                lastActivity := 5
                lastError := none }
          idleCount := wRelPool.idleCount + 1 }
        notOwnedWarning := false
        rolledBack := (wRelPool.connections.get ⟨0, by decide⟩).transactionActive
        signals := 1 } := by
  obtain ⟨a1, a2⟩ := C4_release_semantics
  exact ⟨a1 wRelPool 99 5 rfl (by decide),
    a2 wRelPool 1 5 0 (by decide) rfl (by decide) (by decide)⟩

/-- pgpool_execute never touches the transaction flag. -/
theorem pgpool_execute_txn (conn : Conn) (q : Option String) (t : Int) (env : PCallEnv) :
    (pgpool_execute conn q t env).conn.transactionActive = conn.transactionActive := by
  cases q with
  | none => rfl
  | some s =>
    by_cases hr : conn.hasRaw <;> by_cases hsend : env.sendOk <;>
      by_cases hwait : env.waitOk <;> cases hres : env.results <;>
        simp [pgpool_execute, hr, hsend, hwait, hres] <;> split <;> rfl

/-- pgconn_execute never touches the transaction flag, the thread_safe flag
or the connection id. -/
theorem pgconn_execute_preserves (conn : PgcConn) (q : Option String)
    (opts : Option QueryOpts) (env : PCallEnv) (tnow : Nat) :
    (pgconn_execute conn q opts env tnow).conn.transactionActive = conn.transactionActive ∧
    (pgconn_execute conn q opts env tnow).conn.threadSafe = conn.threadSafe ∧
    (pgconn_execute conn q opts env tnow).conn.connectionId = conn.connectionId := by
  cases q with
  | none => exact ⟨rfl, rfl, rfl⟩
  | some s =>
    simp only [pgconn_execute]
    by_cases hr : conn.hasRaw
    · simp only [hr, if_true]
      by_cases hto : (opts.getD DEFAULT_QUERY_OPTS).timeoutMs < 0
      · rw [if_pos hto]
        by_cases hsend : env.sendOk
        · simp only [hsend, if_true]
          cases hlast : env.results.getLast? with
          | none => exact ⟨rfl, rfl, rfl⟩
          | some r =>
            by_cases hsucc : r.status.isSuccess <;> simp [hsucc]
        · simp [hsend]
      · rw [if_neg hto]
        by_cases hsend : env.sendOk
        · simp only [hsend, if_true]
          by_cases hwait : env.waitOk
          · simp only [hwait, if_true]
            cases hres : env.results with
            | nil => exact ⟨rfl, rfl, rfl⟩
            | cons r rest =>
              by_cases hsucc : r.status.isSuccess <;> simp [hsucc]
          · simp [hwait]
        · simp [hsend]
    · simp [hr]

/-- pgconn_query never touches the thread_safe flag or the connection id. -/
theorem pgconn_query_preserves (conn : PgcConn) (q : Option String)
    (opts : Option QueryOpts) (env : PCallEnv) (tnow : Nat) :
    (pgconn_query conn q opts env tnow).conn.threadSafe = conn.threadSafe ∧
    (pgconn_query conn q opts env tnow).conn.connectionId = conn.connectionId := by
  cases q with
  | none => exact ⟨rfl, rfl⟩
  | some s =>
    simp only [pgconn_query]
    by_cases hr : conn.hasRaw
    · simp only [hr, if_true]
      by_cases hto : (opts.getD DEFAULT_QUERY_OPTS).timeoutMs < 0
      · rw [if_pos hto]
        by_cases hsend : env.sendOk
        · simp only [hsend, if_true]
          cases hlast : env.results.getLast? with
          | none => exact ⟨rfl, rfl⟩
          | some r =>
            by_cases hsucc : r.status.isSuccess <;> simp [hsucc]
        · simp [hsend]
      · rw [if_neg hto]
        by_cases hsend : env.sendOk
        · simp only [hsend, if_true]
          by_cases hwait : env.waitOk
          · simp only [hwait, if_true]
            cases hres : env.results with
            | nil => exact ⟨rfl, rfl⟩
            | cons r rest =>
              by_cases hsucc : r.status.isSuccess <;> simp [hsucc]
          · simp [hwait]
        · simp [hsend]
    · simp [hr]

/-- C5: both transaction controllers refuse a double BEGIN — the call fails,
records the illegal-state message, and issues no statement, with the
transaction flag (and all other connection state) untouched; BEGIN sets the
transaction flag only when the statement succeeded; COMMIT and ROLLBACK with
no active transaction fail, record the illegal-state message and issue no
statement; and with an active transaction they clear the flag
unconditionally, even when the COMMIT/ROLLBACK statement itself failed. -/
theorem C5_transaction_state_machine :
    (∀ (conn : Conn) (env : PCallEnv), conn.transactionActive = true →
        pgpool_begin conn env =
          { conn := { conn with lastError := some "Transaction already active" }
            ok := false, sent := [] }) ∧
    (∀ (conn : Conn) (env : PCallEnv), conn.transactionActive = false →
        (pgpool_begin conn env).conn.transactionActive = (pgpool_begin conn env).ok) ∧
    (∀ (conn : Conn) (env : PCallEnv), conn.transactionActive = false →
        pgpool_commit conn env =
          { conn := { conn with lastError := some "No active transaction to commit" }
            ok := false, sent := [] }) ∧
    (∀ (conn : Conn) (env : PCallEnv), conn.transactionActive = true →
        (pgpool_commit conn env).conn.transactionActive = false) ∧
    (∀ (conn : Conn) (env : PCallEnv), conn.transactionActive = false →
        pgpool_rollback conn env =
          { conn := { conn with lastError := some "No active transaction to rollback" }
            ok := false, sent := [] }) ∧
    (∀ (conn : Conn) (env : PCallEnv), conn.transactionActive = true →
        (pgpool_rollback conn env).conn.transactionActive = false) ∧
    (∀ (conn : PgcConn) (env : PCallEnv) (tnow : Nat), conn.transactionActive = true →
        pgconn_begin conn env tnow =
          { conn := { conn with lastError := "Transaction already active" }
            ok := false, sent := [] }) ∧
    (∀ (conn : PgcConn) (env : PCallEnv) (tnow : Nat), conn.transactionActive = false →
        (pgconn_begin conn env tnow).conn.transactionActive = (pgconn_begin conn env tnow).ok) ∧
    (∀ (conn : PgcConn) (env : PCallEnv) (tnow : Nat), conn.transactionActive = false →
        pgconn_commit conn env tnow =
          { conn := { conn with lastError := "No active transaction to commit" }
            ok := false, sent := [] }) ∧
    (∀ (conn : PgcConn) (env : PCallEnv) (tnow : Nat), conn.transactionActive = true →
        (pgconn_commit conn env tnow).conn.transactionActive = false) ∧
    (∀ (conn : PgcConn) (env : PCallEnv) (tnow : Nat), conn.transactionActive = false →
        pgconn_rollback conn env tnow =
          { conn := { conn with lastError := "No active transaction to rollback" }
            ok := false, sent := [] }) ∧
    (∀ (conn : PgcConn) (env : PCallEnv) (tnow : Nat), conn.transactionActive = true →
        (pgconn_rollback conn env tnow).conn.transactionActive = false) := by
  refine ⟨?_, ?_, ?_, ?_, ?_, ?_, ?_, ?_, ?_, ?_, ?_, ?_⟩
  · intro conn env h
    simp [pgpool_begin, h]
  · intro conn env h
    simp only [pgpool_begin, h, Bool.false_eq_true, if_false]
    cases hok : (pgpool_execute conn (some "BEGIN") (-1) env).ok
    · simp only [Bool.false_eq_true, if_false]
      rw [pgpool_execute_txn, h, hok]
    · simp [hok]
  · intro conn env h
    simp [pgpool_commit, h]
  · intro conn env h
    simp [pgpool_commit, h]
  · intro conn env h
    simp [pgpool_rollback, h]
  · intro conn env h
    simp [pgpool_rollback, h]
  · intro conn env tnow h
    simp [pgconn_begin, h]
  · intro conn env tnow h
    simp only [pgconn_begin, h, Bool.false_eq_true, if_false]
    cases hok : (pgconn_execute conn (some "BEGIN") none env tnow).ok
    · simp only [Bool.false_eq_true, if_false]
      rw [(pgconn_execute_preserves conn (some "BEGIN") none env tnow).1, h, hok]
    · simp [hok]
  · intro conn env tnow h
    simp [pgconn_commit, h]
  · intro conn env tnow h
    simp [pgconn_commit, h]
  · intro conn env tnow h
    simp [pgconn_rollback, h]
  · intro conn env tnow h
    simp [pgconn_rollback, h]

/-- Connection values used for the C5 witness: a pool connection and a
standalone connection, inside and outside a transaction. -/
def wTxnConn : Conn :=
  { connId := 1, hasRaw := true, inUse := true, transactionActive := true,
    lastActivity := 0, lastError := none, pending := [] }

def wIdleTxnConn : Conn :=
  { wTxnConn with transactionActive := false }

def wCTxnConn : PgcConn :=
  { hasRaw := true, lastError := "", connectionId := 1, lastActivity := 0,
    reconnectAttempts := 0, threadSafe := false, transactionActive := true, pending := [] }

def wCIdleConn : PgcConn :=
  { wCTxnConn with transactionActive := false }

/-- Statement environment in which every statement succeeds with
PGRES_COMMAND_OK. -/
def wOkEnv : PCallEnv :=
  { sendOk := true, sendErr := "", waitOk := true, waitErr := ""
    results := [{ status := ExecStatus.commandOk, resultError := "" }] }

/-- C5 witness: the transaction facts evaluated on concrete connections. -/
theorem C5_transaction_state_machine_witness :
    pgpool_begin wTxnConn wOkEnv =
      { conn := { wTxnConn with lastError := some "Transaction already active" }
        ok := false, sent := [] } ∧
    (pgpool_begin wIdleTxnConn wOkEnv).conn.transactionActive =
      (pgpool_begin wIdleTxnConn wOkEnv).ok ∧
    pgpool_commit wIdleTxnConn wOkEnv =
      { conn := { wIdleTxnConn with lastError := some "No active transaction to commit" }
        ok := false, sent := [] } ∧
    (pgpool_commit wTxnConn wOkEnv).conn.transactionActive = false ∧
    pgpool_rollback wIdleTxnConn wOkEnv =
      { conn := { wIdleTxnConn with lastError := some "No active transaction to rollback" }
        ok := false, sent := [] } ∧
    (pgpool_rollback wTxnConn wOkEnv).conn.transactionActive = false ∧
    pgconn_begin wCTxnConn wOkEnv 3 =
      { conn := { wCTxnConn with lastError := "Transaction already active" }
        ok := false, sent := [] } ∧
    (pgconn_begin wCIdleConn wOkEnv 3).conn.transactionActive =
      (pgconn_begin wCIdleConn wOkEnv 3).ok ∧
    pgconn_commit wCIdleConn wOkEnv 3 =
      { conn := { wCIdleConn with lastError := "No active transaction to commit" }
        ok := false, sent := [] } ∧
    (pgconn_commit wCTxnConn wOkEnv 3).conn.transactionActive = false ∧
    pgconn_rollback wCIdleConn wOkEnv 3 =
      { conn := { wCIdleConn with lastError := "No active transaction to rollback" }
        ok := false, sent := [] } ∧
    (pgconn_rollback wCTxnConn wOkEnv 3).conn.transactionActive = false := by
  obtain ⟨a1, a2, a3, a4, a5, a6, a7, a8, a9, a10, a11, a12⟩ := C5_transaction_state_machine
  exact ⟨a1 wTxnConn wOkEnv rfl, a2 wIdleTxnConn wOkEnv rfl, a3 wIdleTxnConn wOkEnv rfl,
    a4 wTxnConn wOkEnv rfl, a5 wIdleTxnConn wOkEnv rfl, a6 wTxnConn wOkEnv rfl,
    a7 wCTxnConn wOkEnv 3 rfl, a8 wCIdleConn wOkEnv 3 rfl, a9 wCIdleConn wOkEnv 3 rfl,
    a10 wCTxnConn wOkEnv 3 rfl, a11 wCIdleConn wOkEnv 3 rfl, a12 wCTxnConn wOkEnv 3 rfl⟩

/-- C6 counterexample to the claim as stated.  With deadline 100 ms, a first
select that consumes the entire 100 ms before data arrives (with the query
still in progress afterwards) leaves a remaining deadline of 100 - 100 = 0,
yet the next loop iteration arms select with the full 100 ms again — the
armings list records select timeouts of 100 for both iterations — and the
call returns only at 200 ms, beyond the deadline.  So an iteration of the
readiness-wait loop is not bounded by the remaining deadline. -/
theorem C6_wait_counterexample :
    (wait_for_query_completion 100
        [SelEv.ready 100 true true "", SelEv.timedOutSel]).armings =
      [some 100, some 100] ∧
    (wait_for_query_completion 100
        [SelEv.ready 100 true true "", SelEv.timedOutSel]).elapsed = 200 ∧
    (100 : Nat) - 100 = 0 ∧
    ¬((wait_for_query_completion 100
        [SelEv.ready 100 true true "", SelEv.timedOutSel]).elapsed ≤ 100) := by
  refine ⟨by decide, by decide, rfl, by decide⟩

/-- C6 (amended): with a finite deadline (timeout_ms ≥ 0) every iteration of
the readiness-wait loop of wait_for_query_completion re-arms select with the
full original timeout, not the remaining deadline (the timeval is
re-initialized inside the loop); consequently, when the server delivers no
input at all the first select expires and the call fails at exactly the
deadline, recording the timeout error and issuing a best-effort cancel —
and whenever a cancel was issued the call reported failure with the timeout
error recorded; but when input keeps arriving without completing the query
the total wait grows as (n+1) times the deadline over n such iterations,
i.e. the overshoot beyond the deadline is unbounded. -/
theorem C6_wait_full_rearm :
    (∀ (t : Int) (evs : List SelEv), 0 ≤ t →
        ∀ a ∈ (wait_for_query_completion t evs).armings, a = some t.toNat) ∧
    (∀ (t : Int) (evs : List SelEv),
        (wait_for_query_completion t evs).cancelIssued = true →
        (wait_for_query_completion t evs).ok = false ∧
        (wait_for_query_completion t evs).recordedError =
          some "Query execution timed out") ∧
    (∀ t : Int, 0 ≤ t →
        wait_for_query_completion t [SelEv.timedOutSel] =
          { ok := false, recordedError := some "Query execution timed out"
            cancelIssued := true, elapsed := t.toNat
            armings := [some t.toNat], stillLooping := false }) ∧
    (∀ (t : Int) (n : Nat), 0 ≤ t →
        (wait_for_query_completion t
            (List.replicate n (SelEv.ready t.toNat true true "") ++
              [SelEv.timedOutSel])).elapsed = (n + 1) * t.toNat) := by
  refine ⟨?_, ?_, ?_, ?_⟩
  · intro t evs ht
    induction evs with
    | nil => simp [wait_for_query_completion]
    | cons ev rest ih =>
      intro a ha
      cases ev with
      | timedOutSel =>
        simp [wait_for_query_completion, ht] at ha
        exact ha
      | eintrSel d =>
        simp [wait_for_query_completion, ht] at ha
        rcases ha with h | h
        · exact h
        · exact ih a h
      | selErr d msg =>
        simp [wait_for_query_completion, ht] at ha
        exact ha
      | ready d cOk busy msg =>
        by_cases hc : cOk <;> by_cases hb : busy <;>
          simp [wait_for_query_completion, ht, hc, hb] at ha
        · rcases ha with h | h
          · exact h
          · exact ih a h
        · exact ha
        · exact ha
        · exact ha
  · intro t evs
    induction evs with
    | nil => intro h; simp [wait_for_query_completion] at h
    | cons ev rest ih =>
      intro h
      cases ev with
      | timedOutSel => exact ⟨rfl, rfl⟩
      | eintrSel d =>
        simp only [wait_for_query_completion] at h ⊢
        exact ih h
      | selErr d msg =>
        simp [wait_for_query_completion] at h
      | ready d cOk busy msg =>
        by_cases hc : cOk <;> by_cases hb : busy <;>
          simp only [wait_for_query_completion, hc, hb, Bool.false_eq_true, if_true,
            if_false] at h ⊢ <;>
          first
          | exact ih h
          | simp at h
  · intro t ht
    simp [wait_for_query_completion, ht]
  · intro t n ht
    induction n with
    | zero =>
      simp [wait_for_query_completion, ht]
    | succ n ih =>
      rw [List.replicate_succ, List.cons_append]
      simp [wait_for_query_completion, ht, ih]
      ring

/-- C6 witness: the amended facts evaluated at deadline 50 on a concrete
trace. -/
theorem C6_wait_full_rearm_witness :
    (∀ a ∈ (wait_for_query_completion 50
        [SelEv.ready 10 true true "", SelEv.timedOutSel]).armings, a = some 50) ∧
    ((wait_for_query_completion 50 [SelEv.timedOutSel]).ok = false ∧
      (wait_for_query_completion 50 [SelEv.timedOutSel]).recordedError =
        some "Query execution timed out") ∧
    wait_for_query_completion 50 [SelEv.timedOutSel] =
      { ok := false, recordedError := some "Query execution timed out"
        cancelIssued := true, elapsed := 50
        armings := [some 50], stillLooping := false } ∧
    (wait_for_query_completion 50
        (List.replicate 3 (SelEv.ready 50 true true "") ++
          [SelEv.timedOutSel])).elapsed = (3 + 1) * 50 := by
  obtain ⟨a1, a2, a3, a4⟩ := C6_wait_full_rearm
  exact ⟨a1 50 [SelEv.ready 10 true true "", SelEv.timedOutSel] (by decide),
    a2 50 [SelEv.timedOutSel] (by decide),
    a3 50 (by decide),
    a4 50 3 (by decide)⟩

/-- C7: every query-execution entry point (pgpool_execute, pgpool_query,
pgconn_execute, pgconn_query) first drains any results left over from a prior
aborted operation — the outcome is independent of the initial result
pipeline; once the statement runs to completion it classifies success exactly
as the result status being PGRES_TUPLES_OK or PGRES_COMMAND_OK, records the
server-provided error text on any other status, and drains any further
pipelined results before returning control of the session. -/
theorem C7_execution_protocol :
    (∀ (conn : Conn) (q : String) (t : Int) (env : PCallEnv) (p1 p2 : List PgRes),
        conn.hasRaw = true →
        pgpool_execute { conn with pending := p1 } (some q) t env =
          pgpool_execute { conn with pending := p2 } (some q) t env) ∧
    (∀ (conn : Conn) (q : String) (t : Int) (env : PCallEnv) (r : PgRes) (rs : List PgRes),
        conn.hasRaw = true → env.sendOk = true → env.waitOk = true →
        env.results = r :: rs →
        (pgpool_execute conn (some q) t env).ok = r.status.isSuccess ∧
        (pgpool_execute conn (some q) t env).conn.pending = [] ∧
        (r.status.isSuccess = false →
          (pgpool_execute conn (some q) t env).conn.lastError = some r.resultError)) ∧
    (∀ (conn : Conn) (q : String) (t : Int) (env : PCallEnv) (p1 p2 : List PgRes),
        conn.hasRaw = true →
        pgpool_query { conn with pending := p1 } (some q) t env =
          pgpool_query { conn with pending := p2 } (some q) t env) ∧
    (∀ (conn : Conn) (q : String) (t : Int) (env : PCallEnv) (r : PgRes) (rs : List PgRes),
        conn.hasRaw = true → env.sendOk = true → env.waitOk = true →
        env.results = r :: rs →
        (pgpool_query conn (some q) t env).result =
          (if r.status.isSuccess then some r else none) ∧
        (pgpool_query conn (some q) t env).conn.pending = [] ∧
        (r.status.isSuccess = false →
          (pgpool_query conn (some q) t env).conn.lastError = some r.resultError)) ∧
    (∀ (conn : PgcConn) (q : String) (opts : Option QueryOpts) (env : PCallEnv)
        (tnow : Nat) (p1 p2 : List PgRes), conn.hasRaw = true →
        pgconn_execute { conn with pending := p1 } (some q) opts env tnow =
          pgconn_execute { conn with pending := p2 } (some q) opts env tnow) ∧
    (∀ (conn : PgcConn) (q : String) (opts : Option QueryOpts) (env : PCallEnv)
        (tnow : Nat) (r : PgRes), conn.hasRaw = true → env.sendOk = true →
        env.waitOk = true → env.results = [r] →
        (pgconn_execute conn (some q) opts env tnow).ok = r.status.isSuccess ∧
        (pgconn_execute conn (some q) opts env tnow).conn.pending = [] ∧
        (r.status.isSuccess = false →
          (pgconn_execute conn (some q) opts env tnow).conn.lastError = r.resultError)) ∧
    (∀ (conn : PgcConn) (q : String) (opts : Option QueryOpts) (env : PCallEnv)
        (tnow : Nat) (p1 p2 : List PgRes), conn.hasRaw = true →
        pgconn_query { conn with pending := p1 } (some q) opts env tnow =
          pgconn_query { conn with pending := p2 } (some q) opts env tnow) ∧
    (∀ (conn : PgcConn) (q : String) (opts : Option QueryOpts) (env : PCallEnv)
        (tnow : Nat) (r : PgRes), conn.hasRaw = true → env.sendOk = true →
        env.waitOk = true → env.results = [r] →
        (pgconn_query conn (some q) opts env tnow).result =
          (if r.status.isSuccess then some r else none) ∧
        (pgconn_query conn (some q) opts env tnow).conn.pending = [] ∧
        (r.status.isSuccess = false →
          (pgconn_query conn (some q) opts env tnow).conn.lastError = r.resultError)) := by
  refine ⟨?_, ?_, ?_, ?_, ?_, ?_, ?_, ?_⟩
  · intro conn q t env p1 p2 hr
    simp [pgpool_execute, hr]
  · intro conn q t env r rs hr hsend hwait hres
    simp only [pgpool_execute, hr, hsend, hwait, hres, if_true]
    by_cases hsucc : r.status.isSuccess <;> simp [hsucc]
  · intro conn q t env p1 p2 hr
    simp [pgpool_query, hr]
  · intro conn q t env r rs hr hsend hwait hres
    simp only [pgpool_query, hr, hsend, hwait, hres, if_true]
    by_cases hsucc : r.status.isSuccess <;> simp [hsucc]
  · intro conn q opts env tnow p1 p2 hr
    simp only [pgconn_execute]
    by_cases hto : (opts.getD DEFAULT_QUERY_OPTS).timeoutMs < 0 <;>
      simp [hr, hto]
  · intro conn q opts env tnow r hr hsend hwait hres
    simp only [pgconn_execute, hr, hsend, hwait, hres, if_true]
    by_cases hto : (opts.getD DEFAULT_QUERY_OPTS).timeoutMs < 0
    · rw [if_pos hto]
      by_cases hsucc : r.status.isSuccess <;> simp [hsucc]
    · rw [if_neg hto]
      by_cases hsucc : r.status.isSuccess <;> simp [hsucc]
  · intro conn q opts env tnow p1 p2 hr
    simp only [pgconn_query]
    by_cases hto : (opts.getD DEFAULT_QUERY_OPTS).timeoutMs < 0 <;>
      simp [hr, hto]
  · intro conn q opts env tnow r hr hsend hwait hres
    simp only [pgconn_query, hr, hsend, hwait, hres, if_true]
    by_cases hto : (opts.getD DEFAULT_QUERY_OPTS).timeoutMs < 0
    · rw [if_pos hto]
      by_cases hsucc : r.status.isSuccess <;> simp [hsucc]
    · rw [if_neg hto]
      by_cases hsucc : r.status.isSuccess <;> simp [hsucc]

def w7Conn : Conn :=
  { connId := 2, hasRaw := true, inUse := true, transactionActive := false,
    lastActivity := 0, lastError := none, pending := [] }

def w7CConn : PgcConn :=
  { hasRaw := true, lastError := "", connectionId := 2, lastActivity := 0,
    reconnectAttempts := 0, threadSafe := false, transactionActive := false, pending := [] }

/-- A failed statement result carrying a server error message. -/
def w7Res : PgRes := { status := ExecStatus.fatalError, resultError := "deadlock detected" }

def w7Env : PCallEnv :=
  { sendOk := true, sendErr := "", waitOk := true, waitErr := "", results := [w7Res] }

/-- C7 witness: the protocol facts evaluated on a concrete connection with a
stale pipelined result and on a failing statement environment. -/
theorem C7_execution_protocol_witness :
    (pgpool_execute { w7Conn with pending := [w7Res] } (some "q") 0 w7Env =
       pgpool_execute { w7Conn with pending := [] } (some "q") 0 w7Env) ∧
    (pgpool_execute w7Conn (some "q") 0 w7Env).ok = w7Res.status.isSuccess ∧
    (pgpool_execute w7Conn (some "q") 0 w7Env).conn.pending = [] ∧
    (pgpool_execute w7Conn (some "q") 0 w7Env).conn.lastError = some w7Res.resultError ∧
    (pgpool_query { w7Conn with pending := [w7Res] } (some "q") 0 w7Env =
       pgpool_query { w7Conn with pending := [] } (some "q") 0 w7Env) ∧
    (pgpool_query w7Conn (some "q") 0 w7Env).result =
      (if w7Res.status.isSuccess then some w7Res else none) ∧
    (pgpool_query w7Conn (some "q") 0 w7Env).conn.pending = [] ∧
    (pgpool_query w7Conn (some "q") 0 w7Env).conn.lastError = some w7Res.resultError ∧
    (pgconn_execute { w7CConn with pending := [w7Res] } (some "q") none w7Env 5 =
       pgconn_execute { w7CConn with pending := [] } (some "q") none w7Env 5) ∧
    (pgconn_execute w7CConn (some "q") none w7Env 5).ok = w7Res.status.isSuccess ∧
    (pgconn_execute w7CConn (some "q") none w7Env 5).conn.pending = [] ∧
    (pgconn_execute w7CConn (some "q") none w7Env 5).conn.lastError = w7Res.resultError ∧
    (pgconn_query { w7CConn with pending := [w7Res] } (some "q") none w7Env 5 =
       pgconn_query { w7CConn with pending := [] } (some "q") none w7Env 5) ∧
    (pgconn_query w7CConn (some "q") none w7Env 5).result =
      (if w7Res.status.isSuccess then some w7Res else none) ∧
    (pgconn_query w7CConn (some "q") none w7Env 5).conn.pending = [] ∧
    (pgconn_query w7CConn (some "q") none w7Env 5).conn.lastError = w7Res.resultError := by
  obtain ⟨h1, h2, h3, h4, h5, h6, h7, h8⟩ := C7_execution_protocol
  have e2 := h2 w7Conn "q" 0 w7Env w7Res [] rfl rfl rfl rfl
  have e4 := h4 w7Conn "q" 0 w7Env w7Res [] rfl rfl rfl rfl
  have e6 := h6 w7CConn "q" none w7Env 5 w7Res rfl rfl rfl rfl
  have e8 := h8 w7CConn "q" none w7Env 5 w7Res rfl rfl rfl rfl
  exact ⟨h1 w7Conn "q" 0 w7Env [w7Res] [] rfl,
    e2.1, e2.2.1, e2.2.2 rfl,
    h3 w7Conn "q" 0 w7Env [w7Res] [] rfl,
    e4.1, e4.2.1, e4.2.2 rfl,
    h5 w7CConn "q" none w7Env 5 [w7Res] [] rfl,
    e6.1, e6.2.1, e6.2.2 rfl,
    h7 w7CConn "q" none w7Env 5 [w7Res] [] rfl,
    e8.1, e8.2.1, e8.2.2 rfl⟩

theorem pgpool_release_pres (p : Pool) (cid tnow : Nat) :
    idsOf (pgpool_release p cid tnow).pool.connections = idsOf p.connections ∧
    (pgpool_release p cid tnow).pool.shuttingDown = p.shuttingDown ∧
    (pgpool_release p cid tnow).pool.initialized = p.initialized := by
  cases hinit : p.initialized with
  | false => simp [pgpool_release, hinit]
  | true =>
    cases hrel : releaseSlots cid tnow p.connections with
    | none => simp [pgpool_release, hinit, hrel]
    | some lr =>
      obtain ⟨l, rb⟩ := lr
      simp only [pgpool_release, hinit, hrel, if_true]
      exact ⟨(releaseSlots_ids cid tnow p.connections l rb hrel).1, by trivial, by trivial⟩

theorem releaseFold_pres : ∀ (rs : List (Nat × Nat)) (p : Pool),
    idsOf (rs.foldl (fun q r => (pgpool_release q r.1 r.2).pool) p).connections =
      idsOf p.connections ∧
    (rs.foldl (fun q r => (pgpool_release q r.1 r.2).pool) p).shuttingDown =
      p.shuttingDown ∧
    (rs.foldl (fun q r => (pgpool_release q r.1 r.2).pool) p).initialized =
      p.initialized := by
  intro rs
  induction rs with
  | nil => intro p; exact ⟨rfl, rfl, rfl⟩
  | cons r rest ih =>
    intro p
    have h1 := pgpool_release_pres p r.1 r.2
    have h2 := ih (pgpool_release p r.1 r.2).pool
    simp only [List.foldl_cons]
    exact ⟨h2.1.trans h1.1, h2.2.1.trans h1.2.1, h2.2.2.trans h1.2.2⟩

theorem destroyWaitLoop_pres : ∀ (fuel : Nat) (p : Pool) (sched : List (List (Nat × Nat))),
    idsOf (destroyWaitLoop fuel p sched).1.connections = idsOf p.connections ∧
    (destroyWaitLoop fuel p sched).1.shuttingDown = p.shuttingDown ∧
    (destroyWaitLoop fuel p sched).2 ≤ fuel := by
  intro fuel
  induction fuel with
  | zero => intro p sched; exact ⟨rfl, rfl, Nat.le_refl 0⟩
  | succ fuel ih =>
    intro p sched
    by_cases hlt : p.idleCount < p.connections.length
    · have hf := releaseFold_pres (sched.headD []) p
      have h2 := ih ((sched.headD []).foldl (fun q r => (pgpool_release q r.1 r.2).pool) p)
        sched.tail
      simp only [destroyWaitLoop, hlt, if_true]
      exact ⟨h2.1.trans hf.1, h2.2.1.trans hf.2.1, by omega⟩
    · simp only [destroyWaitLoop, hlt, if_false]
      exact ⟨by trivial, by trivial, Nat.zero_le _⟩

/-- C8: on an initialized pool, pgpool_destroy sets the shutting-down flag,
broadcasts to every waiter, waits at most the 10 bounded short intervals for
checked-out connections to come back, and then passes every slot of the table
to destroy_connection exactly once — the ids handed to destroy_connection are
exactly the ids of the pool connections (releases occurring during the wait
neither add nor remove slots), they contain no duplicate when the table does
not (no double close), nothing is left out regardless of checkout state (no
leaked handle), and the table is emptied and deinitialized. -/
theorem C8_destroy_semantics (p : Pool) (sched : List (List (Nat × Nat)))
    (hinit : p.initialized = true) :
    (pgpool_destroy p sched).noop = false ∧
    (pgpool_destroy p sched).broadcast = true ∧
    (pgpool_destroy p sched).pool.shuttingDown = true ∧
    (pgpool_destroy p sched).waitIntervals ≤ 10 ∧
    (pgpool_destroy p sched).destroyedIds = idsOf p.connections ∧
    (pgpool_destroy p sched).pool.connections = [] ∧
    (pgpool_destroy p sched).pool.initialized = false ∧
    ((idsOf p.connections).Nodup → (pgpool_destroy p sched).destroyedIds.Nodup) := by
  simp only [pgpool_destroy, hinit, if_true]
  have h := destroyWaitLoop_pres 10 { p with shuttingDown := true, initialized := true } sched
  have hd : (destroyWaitLoop 10 { p with shuttingDown := true, initialized := true }
      sched).1.connections.map (fun c => c.connId) = idsOf p.connections := h.1
  refine ⟨by trivial, by trivial, h.2.1, h.2.2, hd, by trivial, by trivial, ?_⟩
  intro hnd
  show ((destroyWaitLoop 10 { p with shuttingDown := true, initialized := true }
    sched).1.connections.map (fun c => c.connId)).Nodup
  rw [hd]
  exact hnd

def w8Conn1 : Conn :=
  { connId := 1, hasRaw := true, inUse := true, transactionActive := false,
    lastActivity := 0, lastError := none, pending := [] }

def w8Conn2 : Conn :=
  { connId := 2, hasRaw := true, inUse := false, transactionActive := false,
    lastActivity := 0, lastError := none, pending := [] }

/-- An initialized two-slot pool with one connection checked out. -/
def w8Pool : Pool :=
  { connections := [w8Conn1, w8Conn2], idleCount := 1, config := DEFAULT_CONFIG,
    conninfo := some "dbname=test", shuttingDown := false, initialized := true,
    nextConnId := 2 }

/-- C8 witness: destroying a concrete initialized pool, where the checked-out
connection is released during the first wait interval. -/
theorem C8_destroy_semantics_witness :
    (pgpool_destroy w8Pool [[(1, 7)]]).broadcast = true ∧
    (pgpool_destroy w8Pool [[(1, 7)]]).pool.shuttingDown = true ∧
    (pgpool_destroy w8Pool [[(1, 7)]]).waitIntervals ≤ 10 ∧
    (pgpool_destroy w8Pool [[(1, 7)]]).destroyedIds = [1, 2] ∧
    (pgpool_destroy w8Pool [[(1, 7)]]).destroyedIds.Nodup ∧
    (pgpool_destroy w8Pool [[(1, 7)]]).pool.connections = [] := by
  have h := C8_destroy_semantics w8Pool [[(1, 7)]] rfl
  exact ⟨h.2.1, h.2.2.1, h.2.2.2.1, h.2.2.2.2.1.trans (by decide),
    h.2.2.2.2.2.2.2 (by decide), h.2.2.2.2.2.1⟩

/-- C9: each guarded (_safe) entry point of the connection wrapper acquires the
session's own lock, invokes exactly the corresponding unguarded core operation
with the same arguments, and releases the lock, strictly in that order: its
returned connection state, boolean or result, and sent statements are exactly
those of the unguarded call on the same session state, the whole wrapper is
extensionally the lock/core/unlock bracket guardedSpec written from the spec,
and the lock trace is exactly one acquire of the session's own lock followed
by one release of that same lock when the session is thread_safe and empty
otherwise — in particular no second session's lock is ever taken while the
first is held. -/
theorem C9_guarded_refinement (conn : PgcConn) (query : Option String)
    (opts : Option QueryOpts) (env : PCallEnv) (tnow : Nat) :
    ((pgconn_execute_safe conn query opts env tnow).conn =
        (pgconn_execute conn query opts env tnow).conn ∧
      (pgconn_execute_safe conn query opts env tnow).ok =
        (pgconn_execute conn query opts env tnow).ok ∧
      (pgconn_execute_safe conn query opts env tnow).sent =
        (pgconn_execute conn query opts env tnow).sent) ∧
    ((pgconn_query_safe conn query opts env tnow).conn =
        (pgconn_query conn query opts env tnow).conn ∧
      (pgconn_query_safe conn query opts env tnow).result =
        (pgconn_query conn query opts env tnow).result ∧
      (pgconn_query_safe conn query opts env tnow).sent =
        (pgconn_query conn query opts env tnow).sent) ∧
    (guardedSpec conn (fun c => ((pgconn_execute c query opts env tnow).conn,
        ((pgconn_execute c query opts env tnow).ok,
         (pgconn_execute c query opts env tnow).sent))) =
      (((pgconn_execute_safe conn query opts env tnow).conn,
        ((pgconn_execute_safe conn query opts env tnow).ok,
         (pgconn_execute_safe conn query opts env tnow).sent)),
       (pgconn_execute_safe conn query opts env tnow).trace)) ∧
    (guardedSpec conn (fun c => ((pgconn_query c query opts env tnow).conn,
        ((pgconn_query c query opts env tnow).result,
         (pgconn_query c query opts env tnow).sent))) =
      (((pgconn_query_safe conn query opts env tnow).conn,
        ((pgconn_query_safe conn query opts env tnow).result,
         (pgconn_query_safe conn query opts env tnow).sent)),
       (pgconn_query_safe conn query opts env tnow).trace)) ∧
    (pgconn_execute_safe conn query opts env tnow).trace =
      (if conn.threadSafe then
        [LockEv.lockEv conn.connectionId, LockEv.unlockEv conn.connectionId]
       else []) ∧
    (pgconn_query_safe conn query opts env tnow).trace =
      (if conn.threadSafe then
        [LockEv.lockEv conn.connectionId, LockEv.unlockEv conn.connectionId]
       else []) := by
  have he := pgconn_execute_preserves conn query opts env tnow
  have hq := pgconn_query_preserves conn query opts env tnow
  refine ⟨⟨rfl, rfl, rfl⟩, ⟨rfl, rfl, rfl⟩, rfl, rfl, ?_, ?_⟩
  · show (if conn.threadSafe then [LockEv.lockEv conn.connectionId] else []) ++
      (if (pgconn_execute conn query opts env tnow).conn.threadSafe then
        [LockEv.unlockEv (pgconn_execute conn query opts env tnow).conn.connectionId]
       else []) = _
    rw [he.2.1, he.2.2]
    by_cases h : conn.threadSafe <;> simp [h]
  · show (if conn.threadSafe then [LockEv.lockEv conn.connectionId] else []) ++
      (if (pgconn_query conn query opts env tnow).conn.threadSafe then
        [LockEv.unlockEv (pgconn_query conn query opts env tnow).conn.connectionId]
       else []) = _
    rw [hq.1, hq.2]
    by_cases h : conn.threadSafe <;> simp [h]
